import Mathlib

/-
  Verification development for the conversational sales follow-up recording
  service ("records"): a shallow embedding, in Lean 4, of the rule engine
  (internal/engine), the turn orchestrator (internal/orchestrator), the
  output worker (internal/worker), the repository semantics
  (internal/repository) and the AI-client post-processing (internal/ai),
  together with theorems about the embedded definitions.

  Modelling conventions:
  * uuid.UUID values are modelled as String (the Go code itself keys its
    pending-updates maps by uuid.String(); String round-trips injectively).
  * time.Time is modelled as Int (an abstract timestamp; the code only
    copies, stores and compares timestamps).
  * Go maps are modelled as association lists carrying an iteration order;
    Go map iteration order is unspecified, so any list ordering is a
    possible execution.
  * JSON field values (interface values) reaching pending_updates are
    modelled as String: every write path funnels them through
    fmt.Sprintf, and the extraction results are strings in practice.  The
    legacy-JSON round-trip section uses an explicit JSON value type.
  * Database rows are Lean lists inside a Db structure; repository calls
    are pure functions over Db.  sqlx transactions are modelled at the
    call sites: an operation invoked with the transaction context works on
    the transactional state that is discarded on rollback, while an
    operation invoked with the plain context (getExecer falling back to
    r.db) takes effect immediately.
-/

namespace Sale

/-! ## State, status and relevance constants (internal/models) -/

def StateCustomerName : String := "CUSTOMER_NAME"

def StateFollowMethod : String := "FOLLOW_METHOD"

def StateFollowContent : String := "FOLLOW_CONTENT"

def StateFollowGoal : String := "FOLLOW_GOAL"

def StateFollowResult : String := "FOLLOW_RESULT"

def StateNextPlan : String := "NEXT_PLAN"

def StateComplete : String := "COMPLETE"

def StatusCollecting : String := "COLLECTING"

def StatusAskingOtherCustomers : String := "ASKING_OTHER_CUSTOMERS"

def StatusConfirming : String := "CONFIRMING"

def StatusOutputting : String := "OUTPUTTING"

def StatusExit : String := "EXIT"

def SemanticStrong : String := "STRONG"

def SemanticNone : String := "NONE"

/-- models.GetFieldByState: lookup in StateFieldMap; missing keys give the
Go zero value, the empty string. -/
def GetFieldByState (state : String) : String :=
  if state = StateCustomerName then "customer_name"
  else if state = StateFollowMethod then "follow_method"
  else if state = StateFollowContent then "follow_content"
  else if state = StateFollowGoal then "follow_goal"
  else if state = StateFollowResult then "follow_result"
  else if state = StateNextPlan then "next_plan"
  else ""

/-! ## Association-list helpers (Go maps with an explicit iteration order) -/

/-- Map lookup: m[k] returning an Option. -/
def lookupA {α : Type} (m : List (String × α)) (k : String) : Option α :=
  (m.find? (fun p => p.1 = k)).map (fun p => p.2)

/-- Map write m[k] = v: replace the binding if the key is present,
otherwise append a new binding. -/
def setA {α : Type} (m : List (String × α)) (k : String) (v : α) :
    List (String × α) :=
  if (m.find? (fun p => p.1 = k)).isSome then
    m.map (fun p => if p.1 = k then (k, v) else p)
  else
    m ++ [(k, v)]

/-- Map deletion delete(m, k). -/
def removeA {α : Type} (m : List (String × α)) (k : String) :
    List (String × α) :=
  m.filter (fun p => ¬ p.1 = k)

/-! ## Data model (internal/models) -/

structure Customer where
  id : String
  name : String
  contactPerson : Option String := none
  contactPhone : Option String := none
  contactRole : Option String := none
deriving Repr, DecidableEq

structure FollowRecord where
  id : String := ""
  userId : String := ""
  customerId : String := ""
  customerName : String := ""
  contactPerson : Option String := none
  contactPhone : Option String := none
  contactRole : Option String := none
  followTime : Int := 0
  followMethod : Option String := none
  followContent : Option String := none
  followGoal : Option String := none
  followResult : Option String := none
  riskContent : Option String := none
  nextPlan : Option String := none
deriving Repr, DecidableEq

/-! ## Rule engine (internal/engine) -/

/-- The nil-or-empty test the engine applies to each follow-record field:
followRecord.X == nil or the pointed-to string is empty. -/
def isUnset (o : Option String) : Bool :=
  match o with
  | none => true
  | some s => s = ""

/-- engine.DetermineState, translated clause by clause from the source. -/
def DetermineState (customer : Option Customer) (followRecord : Option FollowRecord) :
    String :=
  match customer with
  | none => StateCustomerName
  | some _ =>
    match followRecord with
    | none => StateFollowContent
    | some r =>
      if isUnset r.followContent then StateFollowContent
      else if isUnset r.followGoal then StateFollowGoal
      else if isUnset r.followResult then StateFollowResult
      else if isUnset r.nextPlan then StateNextPlan
      else if isUnset r.followMethod then StateFollowMethod
      else StateComplete

/-- The range loop inside engine.DetermineStatus: return COLLECTING at the
first state that is not COMPLETE, CONFIRMING once the range is exhausted. -/
def determineStatusLoop : List (String × String) → String
  | [] => StatusConfirming
  | (_, st) :: rest =>
    if st ≠ StateComplete then StatusCollecting else determineStatusLoop rest

/-- engine.DetermineStatus over the customer-state map (carried with its
iteration order; the result is order-independent). -/
def DetermineStatus (customerStates : List (String × String)) : String :=
  if customerStates.isEmpty then StatusAskingOtherCustomers
  else determineStatusLoop customerStates

/-- The canonical state scan order used by SelectFocusCustomer step 3
(COMPLETE deliberately absent). -/
def selectStateOrder : List String :=
  [StateCustomerName, StateFollowContent, StateFollowGoal,
   StateFollowResult, StateNextPlan, StateFollowMethod]

/-- The inner range loop of SelectFocusCustomer step 3: first customer in
iteration order whose state equals the target state. -/
def findCustomerWithState (customerStates : List (String × String))
    (targetState : String) : Option String :=
  (customerStates.find? (fun p => p.2 = targetState)).map (fun p => p.1)

/-- The outer loop of SelectFocusCustomer step 3 over selectStateOrder. -/
def scanStateOrder (customerStates : List (String × String)) :
    List String → Option String
  | [] => none
  | targetState :: rest =>
    match findCustomerWithState customerStates targetState with
    | some id => some id
    | none => scanStateOrder customerStates rest

/-- engine.SelectFocusCustomer, translated from the source.  The
customer-state map is carried with its Go iteration order; step 3 of the
tie-break depends on that order. -/
def SelectFocusCustomer (currentFocus : Option String)
    (mentionedCustomer : Option String)
    (customerStates : List (String × String))
    (status : String) : Option String :=
  if status = StatusConfirming then
    match mentionedCustomer with
    | some m => some m
    | none => currentFocus
  else if status = StatusAskingOtherCustomers ∧ mentionedCustomer.isSome then
    mentionedCustomer
  else
    match mentionedCustomer with
    | some m => some m
    | none =>
      match currentFocus with
      | some cf =>
        match lookupA customerStates cf with
        | some st =>
          if st ≠ StateComplete then some cf
          else scanStateOrder customerStates selectStateOrder
        | none => scanStateOrder customerStates selectStateOrder
      | none => scanStateOrder customerStates selectStateOrder

/-- engine.CanWriteRisk. -/
def CanWriteRisk (semanticRelevance currentState : String) : Bool :=
  if semanticRelevance ≠ SemanticStrong then false
  else currentState = StateFollowResult ∨ currentState = StateNextPlan

/-- engine.HandleFieldModification: map the modified field to the state
owning it (zero value for unknown fields); fieldsToReset is always empty. -/
def HandleFieldModification (modifiedField : String) : String × List String :=
  let newState :=
    if modifiedField = "customer_name" then StateCustomerName
    else if modifiedField = "follow_content" then StateFollowContent
    else if modifiedField = "follow_goal" then StateFollowGoal
    else if modifiedField = "follow_result" then StateFollowResult
    else if modifiedField = "next_plan" then StateNextPlan
    else if modifiedField = "follow_method" then StateFollowMethod
    else ""
  (newState, [])

/-! ## Persistent entities and database state (internal/models, sql schema) -/

structure Session where
  id : String
  userId : String
  status : String
  endedAt : Option Int := none
deriving Repr, DecidableEq

/-- models.RuntimeState: the persisted runtime snapshot, in decoded form.
New writes always use the nested pending_updates encoding; the JSON-level
legacy-flat compatibility is modelled separately in the Json section. -/
structure RuntimeState where
  sessionId : String
  focusCustomerId : Option String := none
  state : String
  status : String
  pendingUpdates : List (String × List (String × String)) := []
  pendingReconfirm : Bool := false
deriving Repr, DecidableEq

structure Dialog where
  id : String
  sessionId : String
  state : String
  status : String
  turnIndex : Int
  focusCustomerId : Option String := none
  isFirstFocus : Bool := false
  semanticRelevance : Option String := none
  pendingUpdates : List (String × List (String × String)) := []
  runtimeSnapshot : RuntimeState
  turnContent : Option String := none
  createdAt : Int := 0
deriving Repr, DecidableEq

/-- The relational store.  Lists model tables; sessions and dialogs are kept
in insertion order, so ORDER BY created_at (sessions) and ORDER BY
turn_index (dialogs within one session) coincide with list order. -/
structure Db where
  customers : List Customer := []
  sessions : List Session := []
  dialogs : List Dialog := []
  followRecords : List FollowRecord := []
deriving Repr, DecidableEq

/-! ## Repository semantics (internal/repository).  Each method is a pure
function over Db.  Whether a call participates in the enclosing sqlx
transaction is decided at the call site (getExecer): the orchestrator
passes the transaction context everywhere, the output worker passes the
plain context everywhere. -/

def getCustomer (db : Db) (customerId : String) : Option Customer :=
  db.customers.find? (fun c => c.id = customerId)

def getCustomerByName (db : Db) (name : String) : Option Customer :=
  db.customers.find? (fun c => c.name = name)

/-- GetActiveSession: newest session of the user that is not EXIT and has
no ended_at (ORDER BY created_at DESC LIMIT 1). -/
def getActiveSession (db : Db) (userId : String) : Option Session :=
  (db.sessions.filter
    (fun s => s.userId = userId ∧ s.status ≠ StatusExit ∧ s.endedAt.isNone)).getLast?

def createSessionDb (db : Db) (s : Session) : Db :=
  { db with sessions := db.sessions ++ [s] }

/-- UpdateSession: SET status, ended_at WHERE id. -/
def updateSessionDb (db : Db) (sessionId status : String) (endedAt : Option Int) : Db :=
  { db with sessions := db.sessions.map (fun t =>
      if t.id = sessionId then { t with status := status, endedAt := endedAt } else t) }

def createCustomerDb (db : Db) (c : Customer) : Db :=
  { db with customers := db.customers ++ [c] }

def updateCustomerDb (db : Db) (c : Customer) : Db :=
  { db with customers := db.customers.map (fun t => if t.id = c.id then c else t) }

/-- GetLatestDialog: highest turn_index of the session. -/
def getLatestDialog (db : Db) (sessionId : String) : Option Dialog :=
  (db.dialogs.filter (fun d => d.sessionId = sessionId)).getLast?

def getDialogsBySession (db : Db) (sessionId : String) : List Dialog :=
  db.dialogs.filter (fun d => d.sessionId = sessionId)

/-- GetLatestFocusCustomerIDFromDialogs: focus_customer_id of the newest
dialog of the session that has one. -/
def getLatestFocusCustomerIDFromDialogs (db : Db) (sessionId : String) : Option String :=
  ((db.dialogs.filter
      (fun d => d.sessionId = sessionId ∧ d.focusCustomerId.isSome)).getLast?).bind
    (fun d => d.focusCustomerId)

def createDialogDb (db : Db) (d : Dialog) : Db :=
  { db with dialogs := db.dialogs ++ [d] }

def createFollowRecordDb (db : Db) (r : FollowRecord) : Db :=
  { db with followRecords := db.followRecords ++ [r] }

def updateFollowRecordDb (db : Db) (r : FollowRecord) : Db :=
  { db with followRecords := db.followRecords.map (fun t => if t.id = r.id then r else t) }

def deleteDialogsBySessionDb (db : Db) (sessionId : String) : Db :=
  { db with dialogs := db.dialogs.filter (fun d => ¬ d.sessionId = sessionId) }

def deleteSessionDb (db : Db) (sessionId : String) : Db :=
  { db with sessions := db.sessions.filter (fun s => ¬ s.id = sessionId) }

/-- GetLatestFollowRecord: ORDER BY follow_time DESC LIMIT 1. -/
def getLatestFollowRecord (db : Db) (customerId : String) : Option FollowRecord :=
  (db.followRecords.filter (fun r => r.customerId = customerId)).foldl
    (fun acc r =>
      match acc with
      | none => some r
      | some a => if r.followTime > a.followTime then some r else some a) none

def getCustomerFollowRecords (db : Db) (customerId : String) : List FollowRecord :=
  db.followRecords.filter (fun r => r.customerId = customerId)

/-- World: the database plus the uuid generator, modelled as a counter
producing a stream of distinct identifiers. -/
structure World where
  db : Db
  nextId : Nat := 0
deriving Repr, DecidableEq

def freshId (w : World) : String × World :=
  ("gen-" ++ toString w.nextId, { w with nextId := w.nextId + 1 })

/-! ## Turn orchestrator (internal/orchestrator/turn_orchestrator.go)

The LLM adapter is an oracle: the classification and extraction results for
the turn being processed are inputs.  time.ParseInLocation with layout
2006-01-02 and time.Parse with layout RFC3339 are abstracted as the two
parser fields of TimeParse (any injective date decoding; a concrete model
instance is given further below for closed evaluations).  time.Now() for
the turn is the field now. -/

structure TimeParse where
  parseDate : String → Option Int
  parseRFC3339 : String → Option Int

structure CustomerRefItem where
  customerName : String := ""
  fieldUpdates : List (String × Option String) := []
deriving Repr, DecidableEq

structure SemanticAnalysisResult where
  semanticRelevance : String := ""
  customerRefs : List CustomerRefItem := []
deriving Repr, DecidableEq

/-- The per-turn oracle for the AI client plus configured messages.  An
Except.error result models an error return from the adapter. -/
structure OrchEnv where
  isCustomerFollowRelated : Except Unit Bool := .ok false
  isUserConfirmation : Except Unit Bool := .ok false
  isUserNoMoreCustomers : Except Unit Bool := .ok false
  semanticAnalysis : Except Unit SemanticAnalysisResult := .error ()
  generateDialogue : Except Unit String := .ok ""
  timeParse : TimeParse
  now : Int := 0
  submitTaskFull : Bool := false
  msgAskingOtherCustomers : String := ""
  msgOutputtingConfirm : String := ""
  msgOutputtingEnded : String := ""

/-- orchestrator.RuntimeContext. -/
structure RuntimeContext where
  sessionId : String
  turnIndex : Int := 0
  state : String
  status : String
  focusCustomerId : Option String := none
  mentionedCustomerId : Option String := none
  semanticRelevance : String := ""
  pendingUpdates : List (String × List (String × String)) := []
  isFirstFocus : Bool := false
  pendingReconfirm : Bool := false
deriving Repr, DecidableEq

/-- pending_updates write: make the inner map if absent, then set the field. -/
def pendingSet (pu : List (String × List (String × String)))
    (customerKey field value : String) : List (String × List (String × String)) :=
  let inner := match lookupA pu customerKey with
    | some m => m
    | none => []
  setA pu customerKey (setA inner field value)

/-- The inner map for a customer, nil treated as empty. -/
def pendingDataFor (pu : List (String × List (String × String)))
    (customerKey : String) : List (String × String) :=
  match lookupA pu customerKey with
  | some d => d
  | none => []

/-- orchestrator.writeFieldToRuntime.  fmt.Sprintf on a value already
modelled as String is the identity. -/
def writeFieldToRuntime (rt : RuntimeContext) (customerId field value : String) :
    RuntimeContext :=
  if field = "customer_name" then rt
  else if field = "follow_time" then
    { rt with pendingUpdates := pendingSet rt.pendingUpdates customerId "follow_time" value }
  else if field = "follow_method" ∨ field = "follow_content" ∨ field = "follow_goal" ∨
          field = "follow_result" ∨ field = "next_plan" ∨ field = "risk" then
    let dbKey := if field = "risk" then "risk_content" else field
    { rt with pendingUpdates := pendingSet rt.pendingUpdates customerId dbKey value }
  else rt

/-- orchestrator.handleCurrentFieldWrite.  The caller guarantees a focus
customer; values stored in pending_updates are never null. -/
def handleCurrentFieldWrite (rt : RuntimeContext)
    (fieldUpdates : List (String × Option String)) : RuntimeContext :=
  match rt.focusCustomerId with
  | none => rt
  | some customerKey =>
    let currentField := GetFieldByState rt.state
    let value : Option String :=
      match lookupA fieldUpdates currentField with
      | some (some v) => some v
      | _ => lookupA (pendingDataFor rt.pendingUpdates customerKey) currentField
    match value with
    | some v => writeFieldToRuntime rt customerKey currentField v
    | none => rt

/-- orchestrator.handlePendingUpdates: store every non-null update other
than the current field, risk and contact_person under the focus customer. -/
def handlePendingUpdatesF (rt : RuntimeContext)
    (fieldUpdates : List (String × Option String)) : RuntimeContext :=
  match rt.focusCustomerId with
  | none => rt
  | some customerKey =>
    let pu0 :=
      if (lookupA rt.pendingUpdates customerKey).isSome then rt.pendingUpdates
      else setA rt.pendingUpdates customerKey []
    let currentField := GetFieldByState rt.state
    let pu := fieldUpdates.foldl (fun acc p =>
      match p.2 with
      | some v =>
        if p.1 ≠ currentField ∧ p.1 ≠ "risk" ∧ p.1 ≠ "contact_person" then
          pendingSet acc customerKey p.1 v
        else acc
      | none => acc) pu0
    { rt with pendingUpdates := pu }

/-- orchestrator.writeContactPerson, composed with the contactInfo map
that handleSpecialFields builds from contact_person, contact_role and
contact_phone.  A missing customer row would nil-dereference in the
source; focus customers exist in every reachable state, so the model
leaves the database unchanged in that case. -/
def writeContactPerson (db : Db) (customerId : String)
    (contactName contactRole contactPhone : Option String) : Db :=
  if contactName.isNone ∧ contactRole.isNone ∧ contactPhone.isNone then db
  else
    match getCustomer db customerId with
    | none => db
    | some c =>
      let c1 := match contactName with
        | some n => { c with contactPerson := some n }
        | none => c
      let c2 := match contactRole with
        | some r => { c1 with contactRole := some r }
        | none => c1
      let c3 := match contactPhone with
        | some p => { c2 with contactPhone := some p }
        | none => c2
      updateCustomerDb db c3

/-- orchestrator.handleSpecialFields: the risk gate and the contact write. -/
def handleSpecialFields (rt : RuntimeContext) (db : Db)
    (fieldUpdates : List (String × Option String)) : RuntimeContext × Db :=
  let rt1 :=
    match lookupA fieldUpdates "risk" with
    | some (some v) =>
      if CanWriteRisk rt.semanticRelevance rt.state then
        match rt.focusCustomerId with
        | some cid => writeFieldToRuntime rt cid "risk" v
        | none => rt
      else rt
    | _ => rt
  let nameV := match lookupA fieldUpdates "contact_person" with
    | some (some v) => some v
    | _ => none
  let roleV := match lookupA fieldUpdates "contact_role" with
    | some (some v) => some v
    | _ => none
  let phoneV := match lookupA fieldUpdates "contact_phone" with
    | some (some v) => some v
    | _ => none
  let db1 :=
    if nameV.isSome ∨ roleV.isSome ∨ phoneV.isSome then
      match rt1.focusCustomerId with
      | some cid => writeContactPerson db cid nameV roleV phoneV
      | none => db
    else db
  (rt1, db1)

/-- orchestrator.handleFieldModificationInConfirming: pending-only writes;
the two clearing folds run over the always-empty fieldsToClear list. -/
def handleFieldModificationInConfirming (rt : RuntimeContext)
    (modifiedField newValue : String) : RuntimeContext :=
  match rt.focusCustomerId with
  | none => rt
  | some customerKey =>
    if modifiedField = "follow_time" ∨ modifiedField = "risk_content" ∨
        modifiedField = "risk" then
      let key := if modifiedField = "risk" then "risk_content" else modifiedField
      { rt with pendingUpdates := pendingSet rt.pendingUpdates customerKey key newValue }
    else
      match HandleFieldModification modifiedField with
      | (newState, fieldsToClear) =>
        if newState = "" then rt
        else
          let data0 := pendingDataFor rt.pendingUpdates customerKey
          let data1 := fieldsToClear.foldl (fun acc f =>
            let acc1 := removeA acc f
            if f = "risk" then removeA acc1 "risk_content" else acc1) data0
          let dbKey := if modifiedField = "risk" then "risk_content" else modifiedField
          let data2 := setA data1 dbKey newValue
          let pu1 := setA rt.pendingUpdates customerKey data2
          let pu2 := fieldsToClear.foldl (fun acc f =>
            setA acc customerKey (removeA (pendingDataFor acc customerKey) f)) pu1
          { rt with pendingUpdates := pu2, state := newState, pendingReconfirm := true }

/-- orchestrator.handleConfirmingStageModifications: skip risk and
contact_person, apply the first non-null modification, ignore the rest. -/
def handleConfirmingStageModifications (rt : RuntimeContext) :
    List (String × Option String) → RuntimeContext
  | [] => rt
  | (fieldName, value) :: rest =>
    if fieldName = "risk" ∨ fieldName = "contact_person" then
      handleConfirmingStageModifications rt rest
    else
      match value with
      | some v => handleFieldModificationInConfirming rt fieldName v
      | none => handleConfirmingStageModifications rt rest

/-- orchestrator.processFieldUpdates. -/
def processFieldUpdates (rt : RuntimeContext) (db : Db)
    (fieldUpdates : List (String × Option String)) : RuntimeContext × Db :=
  if rt.focusCustomerId.isNone then (rt, db)
  else if rt.status = StatusConfirming then
    (handleConfirmingStageModifications rt fieldUpdates, db)
  else
    let rt1 := handleCurrentFieldWrite rt fieldUpdates
    let rt2 := handlePendingUpdatesF rt1 fieldUpdates
    handleSpecialFields rt2 db fieldUpdates

/-- orchestrator.findOrCreateCustomer. -/
def findOrCreateCustomer (w : World) (name : String) : String × World :=
  match getCustomerByName w.db name with
  | some c => (c.id, w)
  | none =>
    let (newId, w1) := freshId w
    (newId, { w1 with db := createCustomerDb w1.db (Customer.mk newId name none none none) })

/-- orchestrator.ensureFocusWhenPending. -/
def ensureFocusWhenPending (db : Db) (rt : RuntimeContext) : RuntimeContext :=
  if rt.focusCustomerId.isSome ∨ rt.pendingUpdates.isEmpty then rt
  else if rt.status ≠ StatusCollecting ∧ rt.status ≠ StatusConfirming ∧
          rt.status ≠ StatusAskingOtherCustomers then rt
  else
    match getLatestFocusCustomerIDFromDialogs db rt.sessionId with
    | some latest =>
      if (lookupA rt.pendingUpdates latest).isSome then
        { rt with focusCustomerId := some latest }
      else rt
    | none => rt

/-- The record-building fold of buildFollowRecordFromCollectedData for a
non-nil customer. -/
def buildFollowRecordCore (tp : TimeParse) (now : Int) (c : Customer)
    (data : List (String × String)) : FollowRecord :=
  let r : FollowRecord :=
    { customerId := c.id, customerName := c.name, followTime := now,
      contactPerson := c.contactPerson, contactPhone := c.contactPhone,
      contactRole := c.contactRole }
  if data.isEmpty then r
  else
    data.foldl (fun r p =>
      let s := p.2
      if p.1 = "follow_time" then
        match tp.parseDate s with
        | some t => { r with followTime := t }
        | none =>
          match tp.parseRFC3339 s with
          | some t => { r with followTime := t }
          | none => r
      else if p.1 = "follow_method" then { r with followMethod := some s }
      else if p.1 = "follow_content" then { r with followContent := some s }
      else if p.1 = "follow_goal" then { r with followGoal := some s }
      else if p.1 = "follow_result" then { r with followResult := some s }
      else if p.1 = "next_plan" then { r with nextPlan := some s }
      else if p.1 = "risk_content" then { r with riskContent := some s }
      else r) r

/-- orchestrator.buildFollowRecordFromCollectedData.  The follow_time
placeholder is time.Now(); the fold may replace it by a parsed
user-supplied date. -/
def buildFollowRecordFromCollectedData (tp : TimeParse) (now : Int)
    (customer : Option Customer) (data : List (String × String)) :
    Option FollowRecord :=
  match customer with
  | none => none
  | some c => some (buildFollowRecordCore tp now c data)

/-- orchestrator.getFirstFocusTimeForCustomer: created_at of the earliest
dialog of the session where the customer is focus with is_first_focus set;
time.Now() when none exists. -/
def getFirstFocusTimeForCustomer (db : Db) (now : Int)
    (sessionId customerId : String) : Int :=
  match (getDialogsBySession db sessionId).find?
      (fun d => d.focusCustomerId = some customerId ∧ d.isFirstFocus) with
  | some d => d.createdAt
  | none => now

/-- Set insertion preserving first-seen order (models accumulation into a
Go set-map; the order is one possible iteration order). -/
def dedupInsert (l : List String) (x : String) : List String :=
  if x ∈ l then l else l ++ [x]

/-- orchestrator.getAllCustomerStates: states for every customer in
pending_updates plus focus plus mentioned.  pending_updates keys are
produced by uuid.String(), so uuid.Parse on them always succeeds. -/
def getAllCustomerStates (tp : TimeParse) (now : Int) (db : Db)
    (rt : RuntimeContext) : List (String × String) :=
  let ids0 := rt.pendingUpdates.foldl (fun acc p => dedupInsert acc p.1) []
  let ids1 := match rt.focusCustomerId with
    | some f => dedupInsert ids0 f
    | none => ids0
  let ids2 := match rt.mentionedCustomerId with
    | some m => dedupInsert ids1 m
    | none => ids1
  ids2.foldl (fun acc cid =>
    let customer := getCustomer db cid
    let followRecord :=
      if rt.status = StatusCollecting ∨ rt.status = StatusConfirming ∨
          rt.status = StatusAskingOtherCustomers then
        buildFollowRecordFromCollectedData tp now customer
          (pendingDataFor rt.pendingUpdates cid)
      else getLatestFollowRecord db cid
    acc ++ [(cid, DetermineState customer followRecord)]) []

/-- isFirstFocusForCustomer: true iff no dialog of the session has this
customer as focus yet. -/
def isFirstFocusForCustomer (db : Db) (sessionId customerId : String) : Bool :=
  ¬ (getDialogsBySession db sessionId).any (fun d => d.focusCustomerId = some customerId)

/-- The state scan order of the deterministic focus fallback inside
recalculateStates (it includes COMPLETE, unlike selectStateOrder). -/
def recalcStateOrder : List String :=
  [StateCustomerName, StateFollowContent, StateFollowGoal,
   StateFollowResult, StateNextPlan, StateFollowMethod, StateComplete]

/-- The nested fallback loops, over lexicographically sorted customer ids. -/
def scanStatesSorted (customerStates : List (String × String))
    (idsSorted : List String) : List String → Option String
  | [] => none
  | targetState :: rest =>
    match idsSorted.find? (fun cid => lookupA customerStates cid = some targetState) with
    | some cid => some cid
    | none => scanStatesSorted customerStates idsSorted rest

/-- The final stage decision of recalculateStates: the pending_reconfirm
override of the freshly derived stage. -/
def applyReconfirmOverride (rt : RuntimeContext) (newStatus : String)
    (customerStates : List (String × String)) : RuntimeContext :=
  if newStatus = StatusAskingOtherCustomers ∧ rt.pendingReconfirm = true ∧
      ¬ customerStates.isEmpty then
    { rt with status := StatusConfirming, pendingReconfirm := false }
  else
    let rt1 := { rt with status := newStatus }
    if newStatus = StatusAskingOtherCustomers then { rt1 with pendingReconfirm := false }
    else rt1

/-- orchestrator.recalculateStates.  Its repository usage is read-only and
it always returns nil (getAllCustomerStates collects per-customer errors
without failing), so it is modelled as a total function. -/
def recalculateStates (tp : TimeParse) (now : Int) (db : Db)
    (rt0 : RuntimeContext) : RuntimeContext :=
  let customerStates := getAllCustomerStates tp now db rt0
  let previousFocus := rt0.focusCustomerId
  let newFocus := SelectFocusCustomer rt0.focusCustomerId rt0.mentionedCustomerId
    customerStates rt0.status
  let rt1 := { rt0 with focusCustomerId := newFocus }
  let rt2 :=
    if rt1.focusCustomerId.isNone && !rt1.pendingUpdates.isEmpty then
      let rtA :=
        if !customerStates.isEmpty then
          let idsSorted := (customerStates.map (fun p => p.1)).mergeSort (fun a b => a ≤ b)
          match scanStatesSorted customerStates idsSorted recalcStateOrder with
          | some cid => { rt1 with focusCustomerId := some cid }
          | none => rt1
        else rt1
      if rtA.focusCustomerId.isNone && !rtA.pendingUpdates.isEmpty then
        ensureFocusWhenPending db rtA
      else rtA
    else rt1
  let rt3 :=
    match rt2.focusCustomerId with
    | some f =>
      if previousFocus ≠ some f then
        { rt2 with isFirstFocus := isFirstFocusForCustomer db rt2.sessionId f }
      else rt2
    | none => rt2
  let rt4 :=
    match rt3.focusCustomerId with
    | some f =>
      let customer := getCustomer db f
      let followRecord :=
        if rt3.status = StatusCollecting ∨ rt3.status = StatusConfirming ∨
            rt3.status = StatusAskingOtherCustomers then
          buildFollowRecordFromCollectedData tp now customer
            (pendingDataFor rt3.pendingUpdates f)
        else getLatestFollowRecord db f
      { rt3 with state := DetermineState customer followRecord }
    | none => rt3
  applyReconfirmOverride rt4 (DetermineStatus customerStates) customerStates

/-- orchestrator.saveConfirmedCustomerAndTransition: persist the focus
customer's FollowRecord from pending_updates, drop it from pending, clear
focus and mention, reset state, recompute. -/
def saveConfirmedCustomerAndTransition (tp : TimeParse) (now : Int) (w : World)
    (rt : RuntimeContext) (userId : String) : Except String (RuntimeContext × World) :=
  match rt.focusCustomerId with
  | none => .error "no focus customer to save"
  | some customerId =>
    let customerKey := customerId
    let data := pendingDataFor rt.pendingUpdates customerKey
    if data.isEmpty then .error ("no pending data for customer " ++ customerKey)
    else
      match getCustomer w.db customerId with
      | none => .error ("get customer " ++ customerKey)
      | some customer =>
        match buildFollowRecordFromCollectedData tp now (some customer) data with
        | none => .error ("failed to build follow record for customer " ++ customerKey)
        | some fr0 =>
          let followTime := getFirstFocusTimeForCustomer w.db now rt.sessionId customerId
          let (rid, w1) := freshId w
          let fr := { fr0 with followTime := followTime, userId := userId, id := rid }
          let w2 := { w1 with db := createFollowRecordDb w1.db fr }
          let rt1 := { rt with pendingUpdates := removeA rt.pendingUpdates customerKey,
                               focusCustomerId := none, mentionedCustomerId := none,
                               state := StateCustomerName }
          .ok (recalculateStates tp now w2.db rt1, w2)

/-- One iteration of the customer_refs loop of processWithRuleEngine.
focusCustomerName is computed once before the loop in the source. -/
def applyCustomerRef (w : World) (rt : RuntimeContext) (focusCustomerName : String)
    (item : CustomerRefItem) : RuntimeContext × World :=
  if rt.status = StatusConfirming then
    if rt.focusCustomerId.isSome ∧ ¬ item.fieldUpdates.isEmpty then
      let (rt', db') := processFieldUpdates rt w.db item.fieldUpdates
      (rt', { w with db := db' })
    else (rt, w)
  else if item.customerName = "" then
    if rt.focusCustomerId.isSome ∧ ¬ item.fieldUpdates.isEmpty then
      let (rt', db') := processFieldUpdates rt w.db item.fieldUpdates
      (rt', { w with db := db' })
    else (rt, w)
  else if item.customerName = focusCustomerName then
    let (rt', db') := processFieldUpdates rt w.db item.fieldUpdates
    (rt', { w with db := db' })
  else
    let (cid, w1) := findOrCreateCustomer w item.customerName
    let rt1 := { rt with mentionedCustomerId := some cid, focusCustomerId := some cid }
    let (rt', db') := processFieldUpdates rt1 w1.db item.fieldUpdates
    (rt', { w1 with db := db' })

/-- The focus-customer name the customer_refs loop matches against,
computed once before the loop. -/
def focusNameFor (db : Db) (focus : Option String) : String :=
  match focus with
  | some f =>
    match getCustomer db f with
    | some c => c.name
    | none => ""
  | none => ""

/-- orchestrator.processWithRuleEngine. -/
def processWithRuleEngine (env : OrchEnv) (w : World) (rt0 : RuntimeContext)
    (semanticResult : Option SemanticAnalysisResult) (userId : String) :
    Except String (RuntimeContext × World) :=
  let rt := ensureFocusWhenPending w.db rt0
  let confirmOutcome : Except String (Option (RuntimeContext × World)) :=
    if rt0.status = StatusConfirming then
      match env.isUserConfirmation with
      | .error _ => .ok none
      | .ok false => .ok none
      | .ok true =>
        match saveConfirmedCustomerAndTransition env.timeParse env.now w rt userId with
        | .error e => .error e
        | .ok res => .ok (some res)
    else .ok none
  match confirmOutcome with
  | .error e => .error e
  | .ok (some res) => .ok res
  | .ok none =>
    let noMoreOutcome : Option (RuntimeContext × World) :=
      if rt0.status = StatusAskingOtherCustomers then
        match env.isUserNoMoreCustomers with
        | .ok true => some ({ rt with status := StatusOutputting }, w)
        | _ => none
      else none
    match noMoreOutcome with
    | some res => .ok res
    | none =>
      let stepped :=
        match semanticResult with
        | none => (rt, w)
        | some sr =>
          let rtS := { rt with semanticRelevance := sr.semanticRelevance }
          if sr.semanticRelevance = SemanticStrong ∧ ¬ sr.customerRefs.isEmpty then
            let focusCustomerName := focusNameFor w.db rtS.focusCustomerId
            sr.customerRefs.foldl (fun (acc : RuntimeContext × World) item =>
              applyCustomerRef acc.2 acc.1 focusCustomerName item) (rtS, w)
          else (rtS, w)
      .ok (recalculateStates env.timeParse env.now stepped.2.db stepped.1, stepped.2)

/-- orchestrator.loadOrCreateSession. -/
def loadOrCreateSession (w : World) (userId : String) : Session × World :=
  match getActiveSession w.db userId with
  | some s => (s, w)
  | none =>
    let (sid, w1) := freshId w
    let s : Session := { id := sid, userId := userId, status := StatusCollecting }
    (s, { w1 with db := createSessionDb w1.db s })

/-- orchestrator.loadLatestRuntime: decode the latest dialog's snapshot, or
synthesize the zero context on a fresh session.  Committed snapshots of the
modelled runs are structural and nested; the JSON-level decoding with the
legacy-flat compatibility is verified in the Json section. -/
def loadLatestRuntime (db : Db) (sessionId : String) : RuntimeContext :=
  match getLatestDialog db sessionId with
  | none =>
    { sessionId := sessionId, turnIndex := 0, state := StateCustomerName,
      status := StatusCollecting }
  | some dialog =>
    let snapshot := dialog.runtimeSnapshot
    { sessionId := sessionId, turnIndex := dialog.turnIndex,
      state := snapshot.state, status := snapshot.status,
      focusCustomerId := snapshot.focusCustomerId,
      pendingUpdates := snapshot.pendingUpdates,
      pendingReconfirm := snapshot.pendingReconfirm }

/-- Step increment-turn-index of ProcessTurn. -/
def bumpTurn (rt : RuntimeContext) : RuntimeContext :=
  { rt with turnIndex := rt.turnIndex + 1 }

/-- orchestrator.ShouldCallSemanticAnalysis. -/
def shouldCallSemanticAnalysis (env : OrchEnv) (status : String) : Bool :=
  if status ≠ StatusCollecting ∧ status ≠ StatusConfirming ∧
      status ≠ StatusAskingOtherCustomers then false
  else
    match env.isCustomerFollowRelated with
    | .error _ => false
    | .ok b => b

/-- orchestrator.generateReply: fixed messages for OUTPUTTING and
ASKING_OTHER_CUSTOMERS; otherwise the dialogue LLM (the recap or summary
context it receives only feeds the oracle). -/
def generateReply (env : OrchEnv) (rt : RuntimeContext) : Except Unit String :=
  if rt.status = StatusOutputting then .ok env.msgOutputtingConfirm
  else if rt.status = StatusAskingOtherCustomers then .ok env.msgAskingOtherCustomers
  else env.generateDialogue

/-- orchestrator.saveRuntimeSnapshot: append the new Dialog row carrying
state, stage, focus, is_first_focus, pending_updates, the runtime snapshot
and the turn transcript. -/
def saveRuntimeSnapshot (env : OrchEnv) (w : World) (sessionId : String)
    (rt : RuntimeContext) (userInput reply : String) : World :=
  let snapshot : RuntimeState :=
    { sessionId := sessionId, focusCustomerId := rt.focusCustomerId,
      state := rt.state, status := rt.status,
      pendingUpdates := rt.pendingUpdates, pendingReconfirm := rt.pendingReconfirm }
  let (did, w1) := freshId w
  let turnContent :=
    if userInput ≠ "" ∨ reply ≠ "" then
      some ("User: " ++ userInput ++ "\nAssistant: " ++ reply)
    else none
  let dialog : Dialog :=
    { id := did, sessionId := sessionId, state := rt.state, status := rt.status,
      turnIndex := rt.turnIndex, focusCustomerId := rt.focusCustomerId,
      isFirstFocus := rt.isFirstFocus, semanticRelevance := some rt.semanticRelevance,
      pendingUpdates := rt.pendingUpdates, runtimeSnapshot := snapshot,
      turnContent := turnContent, createdAt := env.now }
  { w1 with db := createDialogDb w1.db dialog }

/-- The body of ProcessTurn, run inside the per-turn transaction (every
repository call in it passes the transaction context). -/
def processTurnBody (env : OrchEnv) (w : World) (userId userInput : String) :
    Except String (String × World) :=
  let step1 := loadOrCreateSession w userId
  let session0 := step1.1
  let w1 := step1.2
  let shortCircuit : Sum String (Session × World) :=
    if session0.status = StatusOutputting then
      let isFollowUp :=
        match env.isCustomerFollowRelated with
        | .ok b => b
        | .error _ => false
      if !isFollowUp then
        let reply :=
          if env.msgOutputtingEnded = "" then
            "对话已结束，如果有新的客户跟进情况要整理，再找我~"
          else env.msgOutputtingEnded
        .inl reply
      else
        let db2 := updateSessionDb w1.db session0.id StatusExit (some env.now)
        let w2 := { w1 with db := db2 }
        let (sid, w3) := freshId w2
        let newSession : Session := { id := sid, userId := userId, status := StatusCollecting }
        .inr (newSession, { w3 with db := createSessionDb w3.db newSession })
    else .inr (session0, w1)
  match shortCircuit with
  | .inl reply => .ok (reply, w1)
  | .inr (session, w2) =>
    let rt1 := bumpTurn (loadLatestRuntime w2.db session.id)
    let semanticResult : Option SemanticAnalysisResult :=
      if shouldCallSemanticAnalysis env rt1.status then
        match env.semanticAnalysis with
        | .ok r => some r
        | .error _ => none
      else none
    match processWithRuleEngine env w2 rt1 semanticResult userId with
    | .error e => .error ("rule engine processing failed: " ++ e)
    | .ok (rt2, w3) =>
      let w4 :=
        if rt2.status = StatusOutputting then
          { w3 with db := updateSessionDb w3.db session.id StatusOutputting session.endedAt }
        else w3
      let reply :=
        match generateReply env rt2 with
        | .ok r => r
        | .error _ => "抱歉，我遇到了一些问题，请稍后再试。"
      .ok (reply, saveRuntimeSnapshot env w4 session.id rt2 userInput reply)

/-- orchestrator.ProcessTurn: the body runs in one transaction; an error
rolls the transaction back, leaving the committed database unchanged. -/
def ProcessTurn (env : OrchEnv) (w : World) (userId userInput : String) :
    Except String String × World :=
  match processTurnBody env w userId userInput with
  | .ok (reply, w') => (.ok reply, w')
  | .error e => (.error e, w)

/-! ## Output worker (internal/worker/output_worker.go)

processTask wraps its body in repo.WithTx, but every repository call inside
the body passes the plain context rather than the transaction context, so
getExecer falls back to the raw connection: each write takes effect
immediately and a rollback of the (empty) transaction reverts nothing.
The model therefore threads the committed database directly and keeps the
state reached so far when the body errors out.

Database faults are injected through WorkerFaults; NormalizeEntities is
LLM-driven and enters as an oracle producing either an error or the
high-confidence merge map. -/

structure WorkerFaults where
  getLatestDialogFails : Bool := false
  getDialogsFails : Bool := false
  createFollowRecordFailsFor : List String := []
  deleteDialogsFails : Bool := false
  deleteSessionFails : Bool := false
deriving Repr, DecidableEq

structure WorkerEnv where
  normalizeResult : Except String (List (String × String)) := .ok []
  faults : WorkerFaults := {}
  now : Int := 0
deriving Repr

/-- One iteration of the mergeCustomers loop: copy missing contact fields
from source to target, update the target row, rewrite every FollowRecord
of the source onto the target.  Lookup failures are batch errors that skip
the pair; the function as a whole always returns nil. -/
def mergeOnePair (db : Db) (sourceId targetId : String) : Db :=
  match getCustomer db sourceId, getCustomer db targetId with
  | some sourceCustomer, some targetCustomer =>
    let t1 :=
      if targetCustomer.contactPerson.isNone ∧ sourceCustomer.contactPerson.isSome then
        { targetCustomer with contactPerson := sourceCustomer.contactPerson }
      else targetCustomer
    let t2 :=
      if t1.contactPhone.isNone ∧ sourceCustomer.contactPhone.isSome then
        { t1 with contactPhone := sourceCustomer.contactPhone }
      else t1
    let t3 :=
      if t2.contactRole.isNone ∧ sourceCustomer.contactRole.isSome then
        { t2 with contactRole := sourceCustomer.contactRole }
      else t2
    let db1 := updateCustomerDb db t3
    (getCustomerFollowRecords db1 sourceId).foldl (fun acc record =>
      updateFollowRecordDb acc { record with customerId := targetId, customerName := t3.name }) db1
  | _, _ => db

/-- worker.mergeCustomers over the merge map (with its iteration order). -/
def mergeCustomers (db : Db) (mergeMap : List (String × String)) : Db :=
  mergeMap.foldl (fun acc p => mergeOnePair acc p.1 p.2) db

/-- worker.buildFollowRecordFromPendingData: like the orchestrator builder
but without the follow_time parsing case. -/
def buildFollowRecordFromPendingData (now : Int) (customer : Customer)
    (data : List (String × String)) : FollowRecord :=
  let r : FollowRecord :=
    { customerId := customer.id, customerName := customer.name, followTime := now,
      contactPerson := customer.contactPerson, contactPhone := customer.contactPhone,
      contactRole := customer.contactRole }
  data.foldl (fun r p =>
    if p.1 = "follow_method" then { r with followMethod := some p.2 }
    else if p.1 = "follow_content" then { r with followContent := some p.2 }
    else if p.1 = "follow_goal" then { r with followGoal := some p.2 }
    else if p.1 = "follow_result" then { r with followResult := some p.2 }
    else if p.1 = "next_plan" then { r with nextPlan := some p.2 }
    else if p.1 = "risk_content" then { r with riskContent := some p.2 }
    else r) r

/-- The worker's loadPendingUpdatesFromSnapshot applied to a committed
dialog: snapshots written by the modelled runs are structural and already
nested (the JSON-level legacy decoding is verified in the Json section). -/
def workerLoadPendingUpdates (dialog : Dialog) : List (String × List (String × String)) :=
  dialog.runtimeSnapshot.pendingUpdates

/-- worker.outputFollowRecords: emit one FollowRecord per pending customer
of the latest dialog.  Per-record failures (bad customer id, missing
customer, insert error) are batch errors: logged, skipped, never returned.
Only the two dialog-loading calls can make the function fail. -/
def outputFollowRecords (env : WorkerEnv) (w : World) (sessionId userId : String) :
    Except String Unit × World :=
  if env.faults.getLatestDialogFails then
    (.error ("get latest dialog for session " ++ sessionId), w)
  else
    match getLatestDialog w.db sessionId with
    | none => (.ok (), w)
    | some latestDialog =>
      let pendingUpdates := workerLoadPendingUpdates latestDialog
      if pendingUpdates.isEmpty then (.ok (), w)
      else if env.faults.getDialogsFails then
        (.error ("get dialogs for session " ++ sessionId), w)
      else
        let dialogs := getDialogsBySession w.db sessionId
        let firstFocusTimes : List (String × Int) := dialogs.foldl (fun acc d =>
          match d.focusCustomerId with
          | some cid => if d.isFirstFocus then setA acc cid d.createdAt else acc
          | none => acc) []
        let wFinal := pendingUpdates.foldl (fun (acc : World) p =>
          let customerKey := p.1
          let data := p.2
          if data.isEmpty then acc
          else
            match getCustomer acc.db customerKey with
            | none => acc
            | some customer =>
              let fr0 := buildFollowRecordFromPendingData env.now customer data
              let followTime :=
                match lookupA firstFocusTimes customerKey with
                | some t => t
                | none => env.now
              let (rid, acc1) := freshId acc
              let fr := { fr0 with followTime := followTime, userId := userId, id := rid }
              if customerKey ∈ env.faults.createFollowRecordFailsFor then acc1
              else { acc1 with db := createFollowRecordDb acc1.db fr }) w
        (.ok (), wFinal)

/-- worker.processTask: normalize and merge (failures logged, never
aborting), emit the follow records (a failure there aborts), then delete
the dialogs and the session (failures logged; a failed session delete
falls back to marking the session EXIT). -/
def normalizeStepDb (w : World)
    (normalizeResult : Except String (List (String × String))) : World :=
  match normalizeResult with
  | .error _ => w
  | .ok mergeMap =>
    if mergeMap.isEmpty then w
    else { w with db := mergeCustomers w.db mergeMap }

def processTask (env : WorkerEnv) (w : World) (sessionId userId : String) :
    Except String Unit × World :=
  let w1 := normalizeStepDb w env.normalizeResult
  match outputFollowRecords env w1 sessionId userId with
  | (.error e, w2) => (.error ("failed to output follow records: " ++ e), w2)
  | (.ok _, w2) =>
    let w3 :=
      if env.faults.deleteDialogsFails then w2
      else { w2 with db := deleteDialogsBySessionDb w2.db sessionId }
    let w4 :=
      if env.faults.deleteSessionFails then
        { w3 with db := updateSessionDb w3.db sessionId StatusExit (some env.now) }
      else { w3 with db := deleteSessionDb w3.db sessionId }
    (.ok (), w4)

/-! ## Entity-normalization post-processing (internal/ai, EntityNormalization)

normalization_score is a float64 in the source; scores are modelled as
rationals, which agrees with float comparison on every representable
score. -/

structure NormalizationResult where
  mentionId : String := ""
  entityId : Option String := none
  normalizationScore : ℚ := 0
  normalizationLevel : String := ""
  needsConfirmation : Bool := false
deriving Repr, DecidableEq

/-- The per-result branch of the post-processing loop at the end of
ai.EntityNormalization. -/
def applyScoreLevel (r : NormalizationResult) : NormalizationResult :=
  if r.normalizationScore ≥ 80 then
    { r with normalizationLevel := "high", needsConfirmation := false }
  else if r.normalizationScore ≥ 60 then
    { r with normalizationLevel := "medium", needsConfirmation := true }
  else if r.normalizationScore ≥ 40 then
    { r with normalizationLevel := "low", needsConfirmation := true }
  else
    { r with normalizationLevel := "none", needsConfirmation := false }

/-- The whole post-processing loop over the parsed results. -/
def entityNormalizationPostProcess (results : List NormalizationResult) :
    List NormalizationResult :=
  results.map applyScoreLevel

/-! ## JSON-level pending_updates decoding (loadPendingUpdatesFromSnapshot)

A minimal JSON value type sufficient for the stored shapes: strings,
objects (with field order), and null. -/

inductive Json where
  | null : Json
  | str : String → Json
  | obj : List (String × Json) → Json
deriving Repr, BEq

/-- One entry of a json.Unmarshal into the nested Go type: the value must
itself decode as a map (an object, or null decoding to the nil map). -/
def asNestedEntry : String × Json → Option (String × List (String × Json))
  | (k, Json.obj g) => some (k, g)
  | (k, Json.null) => some (k, [])
  | _ => none

/-- json.Unmarshal into the nested type: succeeds on an object whose every
value is a map, and on null (yielding the nil map). -/
def decodeNestedGo : Json → Option (List (String × List (String × Json)))
  | Json.obj fs => fs.mapM asNestedEntry
  | Json.null => some []
  | _ => none

/-- json.Unmarshal into the flat legacy type: any object, or null. -/
def decodeFlatGo : Json → Option (List (String × Json))
  | Json.obj fs => some fs
  | Json.null => some []
  | _ => none

/-- json.Marshal of the nested pending_updates value. -/
def encodeNested (pu : List (String × List (String × Json))) : Json :=
  Json.obj (pu.map (fun p => (p.1, Json.obj p.2)))

/-- The legacy branch: re-key the flat map under the focus customer when
one is present. -/
def loadFlatBranch (j : Json) (focusCustomerId : Option String) :
    List (String × List (String × Json)) :=
  match decodeFlatGo j, focusCustomerId with
  | some ff, some fc => if ff.isEmpty then [] else [(fc, ff)]
  | _, _ => []

/-- loadPendingUpdatesFromSnapshot at the JSON level (the orchestrator and
the worker carry the same decoding logic): no/empty/null raw value gives
the empty map; otherwise try the nested shape, then fall back to the
legacy flat shape re-keyed under focus_customer_id. -/
def loadPendingUpdatesJson (pendingRaw : Option Json)
    (focusCustomerId : Option String) : List (String × List (String × Json)) :=
  match pendingRaw with
  | none => []
  | some Json.null => []
  | some j =>
    match decodeNestedGo j with
    | some nf => if nf.isEmpty then loadFlatBranch j focusCustomerId else nf
    | none => loadFlatBranch j focusCustomerId

/-- The set of (customer, field, value) triples a pending_updates value
denotes. -/
def pendingTriples (pu : List (String × List (String × Json))) :
    List (String × String × Json) :=
  pu.flatMap (fun p => p.2.map (fun q => (p.1, q.1, q.2)))

/-! ## A concrete model of the Go date parsers, for closed evaluations -/

def digitVal (c : Char) : Nat := c.toNat - 48

/-- Concretization of time.ParseInLocation with layout 2006-01-02: accepts
exactly the ten-character YYYY-MM-DD shape with an in-range month and day,
and encodes the date injectively as a timestamp. -/
def parseDateModel (s : String) : Option Int :=
  match s.toList with
  | [y1, y2, y3, y4, '-', m1, m2, '-', d1, d2] =>
    if (y1.isDigit && y2.isDigit && y3.isDigit && y4.isDigit &&
        m1.isDigit && m2.isDigit && d1.isDigit && d2.isDigit) then
      let y := ((digitVal y1 * 10 + digitVal y2) * 10 + digitVal y3) * 10 + digitVal y4
      let m := digitVal m1 * 10 + digitVal m2
      let d := digitVal d1 * 10 + digitVal d2
      if 1 ≤ m ∧ m ≤ 12 ∧ 1 ≤ d ∧ d ≤ 31 then
        some (Int.ofNat (y * 10000 + m * 100 + d))
      else none
    else none
  | _ => none

/-- Concretization of time.Parse with the RFC3339 layout, restricted to
the Z-suffixed form; encodes date and time injectively, in a range
disjoint from parseDateModel. -/
def parseRFC3339Model (s : String) : Option Int :=
  match s.toList with
  | [y1, y2, y3, y4, '-', m1, m2, '-', d1, d2, 'T', h1, h2, ':', n1, n2, ':', s1, s2, 'Z'] =>
    if (y1.isDigit && y2.isDigit && y3.isDigit && y4.isDigit &&
        m1.isDigit && m2.isDigit && d1.isDigit && d2.isDigit &&
        h1.isDigit && h2.isDigit && n1.isDigit && n2.isDigit &&
        s1.isDigit && s2.isDigit) then
      let y := ((digitVal y1 * 10 + digitVal y2) * 10 + digitVal y3) * 10 + digitVal y4
      let m := digitVal m1 * 10 + digitVal m2
      let d := digitVal d1 * 10 + digitVal d2
      let hh := digitVal h1 * 10 + digitVal h2
      let nn := digitVal n1 * 10 + digitVal n2
      let ss := digitVal s1 * 10 + digitVal s2
      if 1 ≤ m ∧ m ≤ 12 ∧ 1 ≤ d ∧ d ≤ 31 ∧ hh ≤ 23 ∧ nn ≤ 59 ∧ ss ≤ 59 then
        some (Int.ofNat ((y * 10000 + m * 100 + d) * 1000000 + hh * 10000 + nn * 100 + ss + 1))
      else none
    else none
  | _ => none

def modelTimeParse : TimeParse :=
  TimeParse.mk parseDateModel parseRFC3339Model

/-! ## Specification-side readings (for refinement comparisons only) -/

/-- Spec reading of DetermineState: the canonical ordering of collection
states paired with the follow-record field each one gates; customer_name
is witnessed by the Customer row existing. -/
def specFieldOrder (r : FollowRecord) : List (String × Option String) :=
  [(StateFollowContent, r.followContent), (StateFollowGoal, r.followGoal),
   (StateFollowResult, r.followResult), (StateNextPlan, r.nextPlan),
   (StateFollowMethod, r.followMethod)]

/-- Spec reading: the first field in the canonical ordering that is unset
or empty; COMPLETE when all are set. -/
def firstUnsatisfiedSpec (r : FollowRecord) : String :=
  match (specFieldOrder r).find? (fun p => isUnset p.2) with
  | some p => p.1
  | none => StateComplete

/-- Position of a state in the canonical collection ordering; 6 for
COMPLETE and for anything unknown. -/
def stateRank (st : String) : Nat :=
  if st = StateCustomerName then 0
  else if st = StateFollowContent then 1
  else if st = StateFollowGoal then 2
  else if st = StateFollowResult then 3
  else if st = StateNextPlan then 4
  else if st = StateFollowMethod then 5
  else 6

/-! ## Concrete fixtures for closed evaluations -/

def exCustomerAcme : Customer := { id := "c1", name := "Acme" }

def exPendingC1 : List (String × List (String × String)) :=
  [("c1", [("follow_content", "renewal"), ("follow_goal", "sign"),
           ("follow_result", "agreed"), ("next_plan", "quote"),
           ("follow_method", "phone"), ("follow_time", "2024-01-02")])]

def exSnapshotC1 : RuntimeState :=
  { sessionId := "s1", focusCustomerId := some "c1", state := StateComplete,
    status := StatusConfirming, pendingUpdates := exPendingC1 }

def exDialogC1 : Dialog :=
  { id := "d1", sessionId := "s1", state := StateComplete,
    status := StatusConfirming, turnIndex := 1, focusCustomerId := some "c1",
    isFirstFocus := true, runtimeSnapshot := exSnapshotC1, createdAt := 99 }

def exDbC1 : Db :=
  { customers := [exCustomerAcme],
    sessions := [{ id := "s1", userId := "u1", status := StatusConfirming }],
    dialogs := [exDialogC1] }

def exWorldC1 : World := { db := exDbC1 }

def exRtC1 : RuntimeContext :=
  { sessionId := "s1", turnIndex := 2, state := StateComplete,
    status := StatusConfirming, focusCustomerId := some "c1",
    pendingUpdates := exPendingC1 }

/-- The computed outcome of the C1 confirmation run (total by
construction; the error fallback is never taken on this input). -/
def exSaveResultC1 : RuntimeContext × World :=
  match saveConfirmedCustomerAndTransition modelTimeParse 777 exWorldC1 exRtC1 "u1" with
  | .ok p => p
  | .error _ => (exRtC1, exWorldC1)

def exRtC4 : RuntimeContext :=
  { sessionId := "s1", turnIndex := 3, state := StateComplete,
    status := StatusConfirming, focusCustomerId := some "c1",
    pendingUpdates := exPendingC1 }

def exSnapC2 : RuntimeState :=
  { sessionId := "s2", focusCustomerId := some "cA", state := StateComplete,
    status := StatusOutputting,
    pendingUpdates := [("cA", [("follow_content", "x")]), ("cB", [("follow_content", "y")])] }

def exDialogC2 : Dialog :=
  { id := "d2", sessionId := "s2", state := StateComplete,
    status := StatusOutputting, turnIndex := 1, focusCustomerId := some "cA",
    isFirstFocus := true, runtimeSnapshot := exSnapC2, createdAt := 5 }

def exDbC2 : Db :=
  { customers := [{ id := "cA", name := "A" }, { id := "cB", name := "B" }],
    sessions := [{ id := "s2", userId := "u2", status := StatusOutputting }],
    dialogs := [exDialogC2] }

/-- Worker environment where normalization fails and the insert of cB's
record fails. -/
def exEnvC2 : WorkerEnv :=
  { normalizeResult := .error "llm unavailable",
    faults := { createFollowRecordFailsFor := ["cB"] } }

def exEnvC2ok : WorkerEnv := {}

def exEnvC2fail : WorkerEnv :=
  { faults := { getLatestDialogFails := true } }

def exSnapC10 : RuntimeState :=
  { sessionId := "s3", focusCustomerId := none, state := StateComplete,
    status := StatusConfirming, pendingUpdates := [] }

def exDialogC10 : Dialog :=
  { id := "d3", sessionId := "s3", state := StateComplete,
    status := StatusConfirming, turnIndex := 1,
    runtimeSnapshot := exSnapC10, createdAt := 7 }

def exDbC10 : Db :=
  { sessions := [{ id := "s3", userId := "u3", status := StatusConfirming }],
    dialogs := [exDialogC10] }

def exEnvC10 : OrchEnv :=
  { isUserConfirmation := .ok true, timeParse := modelTimeParse }

def exJsonFlatC8 : Json :=
  Json.obj [("follow_content", Json.str "renewal"), ("follow_method", Json.str "phone")]

/-- The current focus is not retained by SelectFocusCustomer step 2: absent,
missing from the state map, or COMPLETE. -/
def focusIneligible (cf : Option String) (cs : List (String × String)) : Prop :=
  cf = none ∨ ∃ c, cf = some c ∧
    (lookupA cs c = none ∨ lookupA cs c = some StateComplete)

/-! # Theorems -/

/-! ## Helper lemmas -/

theorem determineStatusLoop_all_complete (cs : List (String × String))
    (h : ∀ p ∈ cs, p.2 = StateComplete) :
    determineStatusLoop cs = StatusConfirming := by
  induction cs with
  | nil => rfl
  | cons hd tl ih =>
    have hh := h hd (by simp)
    simp only [determineStatusLoop, hh]
    simp only [ne_eq, not_true_eq_false, if_false]
    exact ih (fun p hp => h p (by simp [hp]))

theorem determineStatusLoop_has_incomplete (cs : List (String × String))
    (h : ∃ p ∈ cs, p.2 ≠ StateComplete) :
    determineStatusLoop cs = StatusCollecting := by
  induction cs with
  | nil => simp at h
  | cons hd tl ih =>
    by_cases hh : hd.2 = StateComplete
    · simp only [determineStatusLoop, hh, ne_eq, not_true_eq_false, if_false]
      apply ih
      rcases h with ⟨p, hp, hne⟩
      rcases List.mem_cons.mp hp with h1 | h2
      · exact absurd (h1 ▸ hh) hne
      · exact ⟨p, h2, hne⟩
    · simp [determineStatusLoop, hh]

theorem findCustomerWithState_none (cs : List (String × String)) (t : String) :
    findCustomerWithState cs t = none ↔ ∀ q ∈ cs, q.2 ≠ t := by
  simp [findCustomerWithState, List.find?_eq_none]

theorem findCustomerWithState_split (cs : List (String × String)) (t i : String)
    (h : findCustomerWithState cs t = some i) :
    ∃ pre post, cs = pre ++ (i, t) :: post ∧ ∀ q ∈ pre, q.2 ≠ t := by
  unfold findCustomerWithState at h
  cases hf : cs.find? (fun p => decide (p.2 = t)) with
  | none => rw [hf] at h; simp at h
  | some q =>
    rw [hf] at h
    have hq1 : q.1 = i := by simpa using h
    rw [List.find?_eq_some] at hf
    obtain ⟨hq, pre, post, heq, hpre⟩ := hf
    have hq2 : q.2 = t := by simpa using hq
    have hqpair : q = (i, t) := by
      cases q; simp_all
    refine ⟨pre, post, by rw [← hqpair]; exact heq, ?_⟩
    intro a ha
    simpa using hpre a ha

theorem rank_lt_six (st : String) (h : stateRank st < 6) :
    st = StateCustomerName ∨ st = StateFollowContent ∨ st = StateFollowGoal ∨
    st = StateFollowResult ∨ st = StateNextPlan ∨ st = StateFollowMethod := by
  unfold stateRank at h
  split_ifs at h with h1 h2 h3 h4 h5 h6 <;> tauto

theorem rank_le_six (st : String) : stateRank st ≤ 6 := by
  unfold stateRank
  split_ifs <;> omega

theorem mem_selectStateOrder_of_rank (st : String) (h : stateRank st < 6) :
    st ∈ selectStateOrder := by
  rcases rank_lt_six st h with hc | hc | hc | hc | hc | hc <;> rw [hc] <;> decide

theorem rank_of_mem_selectStateOrder (st : String) (h : st ∈ selectStateOrder) :
    stateRank st < 6 := by
  fin_cases h <;> decide

theorem min_of_nones (cs : List (String × String)) (bound : Nat) (hb : bound ≤ 6)
    (H : ∀ st ∈ selectStateOrder, stateRank st < bound → findCustomerWithState cs st = none)
    (q : String × String) (hq : q ∈ cs) : bound ≤ stateRank q.2 := by
  by_contra hlt
  push_neg at hlt
  have h6 : stateRank q.2 < 6 := lt_of_lt_of_le hlt hb
  have hmem : q.2 ∈ selectStateOrder := mem_selectStateOrder_of_rank q.2 h6
  have hnone := H q.2 hmem hlt
  exact (findCustomerWithState_none cs q.2).mp hnone q hq rfl

theorem scanSelect_none_iff (cs : List (String × String)) :
    scanStateOrder cs selectStateOrder = none ↔ ∀ q ∈ cs, stateRank q.2 = 6 := by
  constructor
  · intro h
    simp only [selectStateOrder, scanStateOrder] at h
    cases h0 : findCustomerWithState cs StateCustomerName with
    | some j => rw [h0] at h; exact absurd h (by simp)
    | none =>
    rw [h0] at h
    cases h1 : findCustomerWithState cs StateFollowContent with
    | some j => rw [h1] at h; exact absurd h (by simp)
    | none =>
    rw [h1] at h
    cases h2 : findCustomerWithState cs StateFollowGoal with
    | some j => rw [h2] at h; exact absurd h (by simp)
    | none =>
    rw [h2] at h
    cases h3 : findCustomerWithState cs StateFollowResult with
    | some j => rw [h3] at h; exact absurd h (by simp)
    | none =>
    rw [h3] at h
    cases h4 : findCustomerWithState cs StateNextPlan with
    | some j => rw [h4] at h; exact absurd h (by simp)
    | none =>
    rw [h4] at h
    cases h5 : findCustomerWithState cs StateFollowMethod with
    | some j => rw [h5] at h; exact absurd h (by simp)
    | none =>
    intro q hq
    have hH : ∀ st ∈ selectStateOrder, stateRank st < 6 →
        findCustomerWithState cs st = none := by
      intro st hmem _
      fin_cases hmem
      · exact h0
      · exact h1
      · exact h2
      · exact h3
      · exact h4
      · exact h5
    have := min_of_nones cs 6 le_rfl hH q hq
    have := rank_le_six q.2
    omega
  · intro hall
    have hn : ∀ st ∈ selectStateOrder, findCustomerWithState cs st = none := by
      intro st hmem
      rw [findCustomerWithState_none]
      intro q hq hcontra
      have h6 := hall q hq
      rw [hcontra] at h6
      have := rank_of_mem_selectStateOrder st hmem
      omega
    simp only [selectStateOrder, scanStateOrder]
    rw [hn StateCustomerName (by decide), hn StateFollowContent (by decide),
        hn StateFollowGoal (by decide), hn StateFollowResult (by decide),
        hn StateNextPlan (by decide), hn StateFollowMethod (by decide)]

theorem scanSelect_some (cs : List (String × String)) (i : String)
    (h : scanStateOrder cs selectStateOrder = some i) :
    ∃ st pre post, cs = pre ++ (i, st) :: post ∧ stateRank st < 6 ∧
      (∀ q ∈ cs, stateRank st ≤ stateRank q.2) ∧ ∀ q ∈ pre, q.2 ≠ st := by
  simp only [selectStateOrder, scanStateOrder] at h
  cases h0 : findCustomerWithState cs StateCustomerName with
  | some j =>
    rw [h0] at h
    obtain rfl : j = i := by simpa using h
    obtain ⟨pre, post, heq, hpre⟩ := findCustomerWithState_split cs _ _ h0
    exact ⟨StateCustomerName, pre, post, heq, by decide,
      fun q _ => by simp [stateRank], hpre⟩
  | none =>
  rw [h0] at h
  cases h1 : findCustomerWithState cs StateFollowContent with
  | some j =>
    rw [h1] at h
    obtain rfl : j = i := by simpa using h
    obtain ⟨pre, post, heq, hpre⟩ := findCustomerWithState_split cs _ _ h1
    refine ⟨StateFollowContent, pre, post, heq, by decide, ?_, hpre⟩
    intro q hq
    have hmin := min_of_nones cs 1 (by omega) ?_ q hq
    · have : stateRank StateFollowContent = 1 := by decide
      omega
    · intro st hmem hr
      fin_cases hmem <;>
        first
          | exact h0
          | exact absurd hr (by decide)
  | none =>
  rw [h1] at h
  cases h2 : findCustomerWithState cs StateFollowGoal with
  | some j =>
    rw [h2] at h
    obtain rfl : j = i := by simpa using h
    obtain ⟨pre, post, heq, hpre⟩ := findCustomerWithState_split cs _ _ h2
    refine ⟨StateFollowGoal, pre, post, heq, by decide, ?_, hpre⟩
    intro q hq
    have hmin := min_of_nones cs 2 (by omega) ?_ q hq
    · have : stateRank StateFollowGoal = 2 := by decide
      omega
    · intro st hmem hr
      fin_cases hmem <;>
        first
          | exact h0
          | exact h1
          | exact absurd hr (by decide)
  | none =>
  rw [h2] at h
  cases h3 : findCustomerWithState cs StateFollowResult with
  | some j =>
    rw [h3] at h
    obtain rfl : j = i := by simpa using h
    obtain ⟨pre, post, heq, hpre⟩ := findCustomerWithState_split cs _ _ h3
    refine ⟨StateFollowResult, pre, post, heq, by decide, ?_, hpre⟩
    intro q hq
    have hmin := min_of_nones cs 3 (by omega) ?_ q hq
    · have : stateRank StateFollowResult = 3 := by decide
      omega
    · intro st hmem hr
      fin_cases hmem <;>
        first
          | exact h0
          | exact h1
          | exact h2
          | exact absurd hr (by decide)
  | none =>
  rw [h3] at h
  cases h4 : findCustomerWithState cs StateNextPlan with
  | some j =>
    rw [h4] at h
    obtain rfl : j = i := by simpa using h
    obtain ⟨pre, post, heq, hpre⟩ := findCustomerWithState_split cs _ _ h4
    refine ⟨StateNextPlan, pre, post, heq, by decide, ?_, hpre⟩
    intro q hq
    have hmin := min_of_nones cs 4 (by omega) ?_ q hq
    · have : stateRank StateNextPlan = 4 := by decide
      omega
    · intro st hmem hr
      fin_cases hmem <;>
        first
          | exact h0
          | exact h1
          | exact h2
          | exact h3
          | exact absurd hr (by decide)
  | none =>
  rw [h4] at h
  cases h5 : findCustomerWithState cs StateFollowMethod with
  | some j =>
    rw [h5] at h
    obtain rfl : j = i := by simpa using h
    obtain ⟨pre, post, heq, hpre⟩ := findCustomerWithState_split cs _ _ h5
    refine ⟨StateFollowMethod, pre, post, heq, by decide, ?_, hpre⟩
    intro q hq
    have hmin := min_of_nones cs 5 (by omega) ?_ q hq
    · have : stateRank StateFollowMethod = 5 := by decide
      omega
    · intro st hmem hr
      fin_cases hmem <;>
        first
          | exact h0
          | exact h1
          | exact h2
          | exact h3
          | exact h4
          | exact absurd hr (by decide)
  | none =>
    rw [h5] at h
    exact absurd h (by simp)

theorem selectFocus_else_eq_scan (cf m : Option String) (cs : List (String × String))
    (status : String) (hconf : status ≠ StatusConfirming)
    (hask : status ≠ StatusAskingOtherCustomers) (hm : m = none)
    (hin : focusIneligible cf cs) :
    SelectFocusCustomer cf m cs status = scanStateOrder cs selectStateOrder := by
  unfold SelectFocusCustomer
  rw [if_neg hconf, if_neg (fun hc => hask hc.1)]
  subst hm
  rcases hin with rfl | ⟨c, rfl, hc⟩
  · rfl
  · rcases hc with hnone | hcomp
    · simp [hnone]
    · simp [hcomp]

/-! ## Claim theorems -/

/-- C3 counterexample: with two customers tied on the earliest state, the
result is the first one in the Go map's iteration order, not the
lexicographically least id — two iteration orders of the same map give
different answers, and the order listing "b" first returns "b" although
"a" < "b". -/
theorem C3_counterexample :
    SelectFocusCustomer none none
        [("b", StateFollowContent), ("a", StateFollowContent)] StatusCollecting = some "b" ∧
    SelectFocusCustomer none none
        [("a", StateFollowContent), ("b", StateFollowContent)] StatusCollecting = some "a" ∧
    "a" < "b" := by
  refine ⟨rfl, rfl, ?_⟩
  rw [String.lt_iff_toList_lt]
  decide

/-- C3 (amended): outside CONFIRMING and ASKING_OTHER_CUSTOMERS,
SelectFocusCustomer follows the priority order mentionedThisTurn, then
currentFocus when its state is present and not COMPLETE, then the first
customer in map-iteration order among those whose state is earliest in the
canonical ordering; it returns null exactly when nothing is incomplete.
The choice among tied customers follows the map's iteration order, not
lexicographic id order. -/
theorem C3_selectFocus_priority (cf m : Option String) (cs : List (String × String))
    (status : String) (hconf : status ≠ StatusConfirming)
    (hask : status ≠ StatusAskingOtherCustomers) :
    (∀ x, m = some x → SelectFocusCustomer cf m cs status = some x) ∧
    (∀ c st, m = none → cf = some c → lookupA cs c = some st → st ≠ StateComplete →
      SelectFocusCustomer cf m cs status = some c) ∧
    (m = none → focusIneligible cf cs →
      ((SelectFocusCustomer cf m cs status = none ↔ ∀ q ∈ cs, stateRank q.2 = 6) ∧
       ∀ i, SelectFocusCustomer cf m cs status = some i →
         ∃ st pre post, cs = pre ++ (i, st) :: post ∧ stateRank st < 6 ∧
           (∀ q ∈ cs, stateRank st ≤ stateRank q.2) ∧ ∀ q ∈ pre, q.2 ≠ st)) := by
  refine ⟨?_, ?_, ?_⟩
  · intro x hx
    unfold SelectFocusCustomer
    rw [if_neg hconf, if_neg (fun hc => hask hc.1)]
    subst hx
    rfl
  · intro c st hm hc hl hne
    unfold SelectFocusCustomer
    rw [if_neg hconf, if_neg (fun hc => hask hc.1)]
    subst hm
    subst hc
    simp [hl, hne]
  · intro hm hin
    rw [selectFocus_else_eq_scan cf m cs status hconf hask hm hin]
    exact ⟨scanSelect_none_iff cs, scanSelect_some cs⟩

theorem C3_witness :
    SelectFocusCustomer none (some "x") [] StatusCollecting = some "x" ∧
    SelectFocusCustomer (some "c") none [("c", StateFollowGoal)] StatusCollecting = some "c" := by
  constructor
  · exact (C3_selectFocus_priority none (some "x") [] StatusCollecting
      (by decide) (by decide)).1 "x" rfl
  · exact (C3_selectFocus_priority (some "c") none [("c", StateFollowGoal)] StatusCollecting
      (by decide) (by decide)).2.1 "c" StateFollowGoal rfl rfl rfl (by decide)

/-- C5: the reconfirm override at the end of recalculateStates.  Whenever
the freshly derived stage is ASKING_OTHER_CUSTOMERS while pending_reconfirm
is set and the customer-state map is non-empty, the stage is overridden to
CONFIRMING and pending_reconfirm cleared; in every other case the derived
stage is kept.  (recalculateStates invokes this step with the stage freshly
derived by DetermineStatus over the same customerStates.) -/
theorem C5_reconfirm_override (rt : RuntimeContext) (newStatus : String)
    (cs : List (String × String)) :
    (newStatus = StatusAskingOtherCustomers → rt.pendingReconfirm = true → cs ≠ [] →
      applyReconfirmOverride rt newStatus cs =
        { rt with status := StatusConfirming, pendingReconfirm := false }) ∧
    (¬ (newStatus = StatusAskingOtherCustomers ∧ rt.pendingReconfirm = true ∧ cs ≠ []) →
      (applyReconfirmOverride rt newStatus cs).status = newStatus) := by
  constructor
  · intro h1 h2 h3
    unfold applyReconfirmOverride
    rw [if_pos ⟨h1, h2, by simpa [List.isEmpty_iff] using h3⟩]
  · intro h
    unfold applyReconfirmOverride
    split_ifs with hc hc2
    · exact absurd ⟨hc.1, hc.2.1, by simpa [List.isEmpty_iff] using hc.2.2⟩ h
    · rfl
    · rfl

theorem C5_witness :
    applyReconfirmOverride
        { sessionId := "s", state := StateCustomerName,
          status := StatusAskingOtherCustomers, pendingReconfirm := true }
        StatusAskingOtherCustomers [("c", StateComplete)] =
      { sessionId := "s", state := StateCustomerName,
        status := StatusConfirming, pendingReconfirm := false } := by
  exact (C5_reconfirm_override
    { sessionId := "s", state := StateCustomerName,
      status := StatusAskingOtherCustomers, pendingReconfirm := true }
    StatusAskingOtherCustomers [("c", StateComplete)]).1 rfl rfl (by decide)

/-- C6: DetermineState returns CUSTOMER_NAME for a nil customer,
FOLLOW_CONTENT for an existing customer with a nil follow-record, and
otherwise the first field in the canonical ordering that is unset or empty
(COMPLETE when all are set), as captured by the spec-side reading
firstUnsatisfiedSpec. -/
theorem C6_determineState :
    (∀ fr, DetermineState none fr = StateCustomerName) ∧
    (∀ c, DetermineState (some c) none = StateFollowContent) ∧
    (∀ c r, DetermineState (some c) (some r) = firstUnsatisfiedSpec r) := by
  refine ⟨fun _ => rfl, fun _ => rfl, fun c r => ?_⟩
  unfold DetermineState firstUnsatisfiedSpec specFieldOrder
  by_cases h1 : isUnset r.followContent <;>
    by_cases h2 : isUnset r.followGoal <;>
      by_cases h3 : isUnset r.followResult <;>
        by_cases h4 : isUnset r.nextPlan <;>
          by_cases h5 : isUnset r.followMethod <;>
            simp [h1, h2, h3, h4, h5, List.find?]

/-- C7: DetermineStatus returns ASKING_OTHER_CUSTOMERS on the empty map,
COLLECTING when some customer state differs from COMPLETE, and CONFIRMING
on a non-empty map whose states are all COMPLETE. -/
theorem C7_determineStatus (cs : List (String × String)) :
    (cs = [] → DetermineStatus cs = StatusAskingOtherCustomers) ∧
    ((∃ p ∈ cs, p.2 ≠ StateComplete) → DetermineStatus cs = StatusCollecting) ∧
    (cs ≠ [] → (∀ p ∈ cs, p.2 = StateComplete) →
      DetermineStatus cs = StatusConfirming) := by
  refine ⟨?_, ?_, ?_⟩
  · intro h
    subst h
    rfl
  · intro h
    obtain ⟨p, hp, _⟩ := id h
    have hne : cs ≠ [] := by
      intro hc
      subst hc
      simp at hp
    unfold DetermineStatus
    rw [if_neg (by simpa [List.isEmpty_iff] using hne)]
    exact determineStatusLoop_has_incomplete cs h
  · intro hne hall
    unfold DetermineStatus
    rw [if_neg (by simpa [List.isEmpty_iff] using hne)]
    exact determineStatusLoop_all_complete cs hall

theorem C7_witness :
    DetermineStatus [] = StatusAskingOtherCustomers ∧
    DetermineStatus [("c", StateCustomerName)] = StatusCollecting ∧
    DetermineStatus [("c", StateComplete)] = StatusConfirming := by
  refine ⟨(C7_determineStatus []).1 rfl, ?_, ?_⟩
  · exact (C7_determineStatus [("c", StateCustomerName)]).2.1
      ⟨("c", StateCustomerName), by decide, by decide⟩
  · exact (C7_determineStatus [("c", StateComplete)]).2.2 (by decide)
      (by intro p hp; simp at hp; simp [hp])

/-- C1 counterexample: during a CONFIRMING confirmation, the user-supplied
follow_time "2024-01-02" is present in pending_updates and parses as
YYYY-MM-DD, yet the emitted FollowRecord carries the first-focus dialog's
created_at (99), not the parsed date (20240102). -/
theorem C1_counterexample :
    lookupA (pendingDataFor exRtC1.pendingUpdates "c1") "follow_time" =
      some "2024-01-02" ∧
    parseDateModel "2024-01-02" = some 20240102 ∧
    saveConfirmedCustomerAndTransition modelTimeParse 777 exWorldC1 exRtC1 "u1" =
      .ok exSaveResultC1 ∧
    exSaveResultC1.2.db.followRecords.map (fun fr => fr.followTime) = [99] ∧
    (99 : Int) ≠ 20240102 := by
  exact ⟨rfl, rfl, rfl, rfl, by decide⟩

/-- C1 (amended): whenever the CONFIRMING confirmation path emits a
FollowRecord, its follow_time is unconditionally the customer's first-focus
time over the session's dialogs (current time only when no first-focus
dialog exists) — the user-supplied follow_time in pending_updates is parsed
into the built record but then overwritten, whatever the parsers do, and
affects only the confirmation recap. -/
theorem C1_followTime_is_firstFocus (tp : TimeParse) (now : Int) (w : World)
    (rt : RuntimeContext) (userId : String) (rt' : RuntimeContext) (w' : World)
    (h : saveConfirmedCustomerAndTransition tp now w rt userId = .ok (rt', w')) :
    ∃ cid fr, rt.focusCustomerId = some cid ∧
      w'.db.followRecords = w.db.followRecords ++ [fr] ∧
      fr.followTime = getFirstFocusTimeForCustomer w.db now rt.sessionId cid := by
  unfold saveConfirmedCustomerAndTransition at h
  cases hfoc : rt.focusCustomerId with
  | none =>
    rw [hfoc] at h
    exact absurd h (by simp)
  | some cid =>
    rw [hfoc] at h
    by_cases hdata : (pendingDataFor rt.pendingUpdates cid).isEmpty
    · simp only [hdata, if_true] at h
      exact absurd h (by simp)
    · simp only [hdata, Bool.false_eq_true, if_false] at h
      cases hcust : getCustomer w.db cid with
      | none =>
        rw [hcust] at h
        exact absurd h (by simp)
      | some customer =>
        rw [hcust] at h
        simp only [buildFollowRecordFromCollectedData, freshId] at h
        rw [Except.ok.injEq, Prod.mk.injEq] at h
        obtain ⟨_, hw⟩ := h
        refine ⟨cid,
          { buildFollowRecordCore tp now customer (pendingDataFor rt.pendingUpdates cid) with
              followTime := getFirstFocusTimeForCustomer w.db now rt.sessionId cid,
              userId := userId, id := "gen-" ++ toString w.nextId }, rfl, ?_, rfl⟩
        rw [← hw]
        simp [createFollowRecordDb]

theorem C1_witness :
    saveConfirmedCustomerAndTransition modelTimeParse 777 exWorldC1 exRtC1 "u1" =
      .ok (exSaveResultC1.1, exSaveResultC1.2) ∧
    ∃ cid fr, exRtC1.focusCustomerId = some cid ∧
      exSaveResultC1.2.db.followRecords = exWorldC1.db.followRecords ++ [fr] ∧
      fr.followTime = getFirstFocusTimeForCustomer exWorldC1.db 777 exRtC1.sessionId cid := by
  refine ⟨rfl, ?_⟩
  exact C1_followTime_is_firstFocus modelTimeParse 777 exWorldC1 exRtC1 "u1"
    exSaveResultC1.1 exSaveResultC1.2 rfl

theorem hfmic_preserves (rt : RuntimeContext) (f v : String) :
    (handleFieldModificationInConfirming rt f v).status = rt.status ∧
    (handleFieldModificationInConfirming rt f v).focusCustomerId = rt.focusCustomerId ∧
    (handleFieldModificationInConfirming rt f v).mentionedCustomerId = rt.mentionedCustomerId := by
  unfold handleFieldModificationInConfirming
  cases hc : rt.focusCustomerId with
  | none => simp [hc]
  | some ck =>
    simp only [HandleFieldModification]
    split_ifs <;> simp [hc]

theorem hcsm_preserves (rt : RuntimeContext) (l : List (String × Option String)) :
    (handleConfirmingStageModifications rt l).status = rt.status ∧
    (handleConfirmingStageModifications rt l).focusCustomerId = rt.focusCustomerId ∧
    (handleConfirmingStageModifications rt l).mentionedCustomerId = rt.mentionedCustomerId := by
  induction l with
  | nil => exact ⟨rfl, rfl, rfl⟩
  | cons hd tl ih =>
    unfold handleConfirmingStageModifications
    split_ifs with h1
    · exact ih
    · cases hv : hd.2 with
      | none => exact ih
      | some v => exact hfmic_preserves rt hd.1 v

theorem ensureFocus_of_some (db : Db) (rt : RuntimeContext)
    (h : rt.focusCustomerId.isSome) : ensureFocusWhenPending db rt = rt := by
  unfold ensureFocusWhenPending
  rw [if_pos (Or.inl h)]

theorem selectFocus_confirming_no_mention (cf : Option String)
    (cs : List (String × String)) :
    SelectFocusCustomer cf none cs StatusConfirming = cf := by
  unfold SelectFocusCustomer
  rw [if_pos rfl]

theorem applyReconfirmOverride_focus (rt : RuntimeContext) (ns : String)
    (cs : List (String × String)) :
    (applyReconfirmOverride rt ns cs).focusCustomerId = rt.focusCustomerId := by
  unfold applyReconfirmOverride
  split_ifs <;> rfl

theorem recalc_focus_confirming (tp : TimeParse) (now : Int) (db : Db)
    (rt : RuntimeContext) (c : String) (hst : rt.status = StatusConfirming)
    (hfoc : rt.focusCustomerId = some c) (hm : rt.mentionedCustomerId = none) :
    (recalculateStates tp now db rt).focusCustomerId = some c := by
  unfold recalculateStates
  rw [hfoc, hm, hst]
  simp [selectFocus_confirming_no_mention, applyReconfirmOverride_focus]

theorem applyRefs_confirming (items : List CustomerRefItem) (rt : RuntimeContext)
    (w : World) (name c : String) (hst : rt.status = StatusConfirming)
    (hfoc : rt.focusCustomerId = some c) (hm : rt.mentionedCustomerId = none) :
    ∃ rtO, items.foldl (fun acc item => applyCustomerRef acc.2 acc.1 name item) (rt, w) =
        (rtO, w) ∧
      rtO.status = StatusConfirming ∧ rtO.focusCustomerId = some c ∧
      rtO.mentionedCustomerId = none := by
  induction items generalizing rt with
  | nil => exact ⟨rt, rfl, hst, hfoc, hm⟩
  | cons hd tl ih =>
    rw [List.foldl_cons]
    have hbody : applyCustomerRef w rt name hd =
        (if rt.focusCustomerId.isSome ∧ ¬ hd.fieldUpdates.isEmpty then
          handleConfirmingStageModifications rt hd.fieldUpdates else rt, w) := by
      unfold applyCustomerRef
      rw [if_pos hst]
      split_ifs with h1
      · unfold processFieldUpdates
        rw [if_neg (by simp [hfoc]), if_pos hst]
      · rfl
    rw [hbody]
    split_ifs with h1
    · obtain ⟨hp1, hp2, hp3⟩ := hcsm_preserves rt hd.fieldUpdates
      exact ih _ (hp1.trans hst) (hp2.trans hfoc) (hp3.trans hm)
    · exact ih rt hst hfoc hm

/-- C4 counterexample: in CONFIRMING, a field_updates entry modifying
follow_time is applied (written into pending_updates) yet pending_reconfirm
stays false and the runtime state is unchanged, contradicting the claim
that every applied entry sets pending_reconfirm and rolls the state back. -/
theorem C4_counterexample :
    lookupA (pendingDataFor
        (handleConfirmingStageModifications exRtC4
          [("follow_time", some "2024-02-03")]).pendingUpdates "c1") "follow_time" =
      some "2024-02-03" ∧
    (handleConfirmingStageModifications exRtC4
        [("follow_time", some "2024-02-03")]).pendingReconfirm = false ∧
    (handleConfirmingStageModifications exRtC4
        [("follow_time", some "2024-02-03")]).state = exRtC4.state := by
  refine ⟨rfl, rfl, rfl⟩

/-- C4 (amended): in CONFIRMING, the first applicable field_updates entry
naming one of the six canonical record fields is written into
pending_updates under the focus customer, pending_reconfirm is set and the
runtime state is set to the state owning that field (the end-of-turn
recomputation may advance it again); the surrounding rule-engine pass
performs no database write, creates no customer and leaves the focus
customer unchanged.  (Entries naming follow_time or risk_content are
written into pending_updates without touching pending_reconfirm or the
state; risk and contact_person entries are skipped.) -/
theorem C4_confirming_corrections :
    (∀ (rt : RuntimeContext) (c f v : String) (rest : List (String × Option String)),
      rt.focusCustomerId = some c →
      (f = "customer_name" ∨ f = "follow_content" ∨ f = "follow_goal" ∨
        f = "follow_result" ∨ f = "next_plan" ∨ f = "follow_method") →
      handleConfirmingStageModifications rt ((f, some v) :: rest) =
        { rt with pendingUpdates := pendingSet rt.pendingUpdates c f v,
                  state := (HandleFieldModification f).1, pendingReconfirm := true }) ∧
    (∀ (env : OrchEnv) (w : World) (rt : RuntimeContext)
        (sr : Option SemanticAnalysisResult) (userId c : String),
      rt.status = StatusConfirming → rt.focusCustomerId = some c →
      rt.mentionedCustomerId = none →
      (∀ b, env.isUserConfirmation = .ok b → b = false) →
      ∃ rt', processWithRuleEngine env w rt sr userId = .ok (rt', w) ∧
        rt'.focusCustomerId = some c) := by
  constructor
  · intro rt c f v rest hfoc hf
    rcases hf with rfl | rfl | rfl | rfl | rfl | rfl <;>
      simp [handleConfirmingStageModifications, handleFieldModificationInConfirming,
        hfoc, HandleFieldModification, pendingSet, pendingDataFor,
        StateCustomerName, StateFollowContent, StateFollowGoal,
        StateFollowResult, StateNextPlan, StateFollowMethod]
  · intro env w rt sr userId c hst hfoc hm hconf
    unfold processWithRuleEngine
    rw [ensureFocus_of_some w.db rt (by simp [hfoc])]
    rw [hst]
    cases henv : env.isUserConfirmation with
    | error err =>
      simp only [henv]
      cases sr with
      | none =>
        exact ⟨_, rfl, recalc_focus_confirming env.timeParse env.now w.db rt c hst hfoc hm⟩
      | some sres =>
        by_cases hstrong : sres.semanticRelevance = SemanticStrong ∧
            ¬ sres.customerRefs.isEmpty
        · obtain ⟨rtO, hfold, ho1, ho2, ho3⟩ :=
            applyRefs_confirming sres.customerRefs
              { rt with semanticRelevance := sres.semanticRelevance } w
              (focusNameFor w.db rt.focusCustomerId) c hst hfoc hm
          simp only [if_pos hstrong, hfold]
          exact ⟨_, rfl, recalc_focus_confirming env.timeParse env.now w.db rtO c ho1 ho2 ho3⟩
        · simp only [if_neg hstrong]
          exact ⟨_, rfl, recalc_focus_confirming env.timeParse env.now w.db
            { rt with semanticRelevance := sres.semanticRelevance } c hst hfoc hm⟩
    | ok b =>
      have hb := hconf b henv
      subst hb
      simp only [henv]
      cases sr with
      | none =>
        exact ⟨_, rfl, recalc_focus_confirming env.timeParse env.now w.db rt c hst hfoc hm⟩
      | some sres =>
        by_cases hstrong : sres.semanticRelevance = SemanticStrong ∧
            ¬ sres.customerRefs.isEmpty
        · obtain ⟨rtO, hfold, ho1, ho2, ho3⟩ :=
            applyRefs_confirming sres.customerRefs
              { rt with semanticRelevance := sres.semanticRelevance } w
              (focusNameFor w.db rt.focusCustomerId) c hst hfoc hm
          simp only [if_pos hstrong, hfold]
          exact ⟨_, rfl, recalc_focus_confirming env.timeParse env.now w.db rtO c ho1 ho2 ho3⟩
        · simp only [if_neg hstrong]
          exact ⟨_, rfl, recalc_focus_confirming env.timeParse env.now w.db
            { rt with semanticRelevance := sres.semanticRelevance } c hst hfoc hm⟩

theorem C4_witness :
    handleConfirmingStageModifications exRtC4 [("follow_method", some "offline")] =
      { exRtC4 with
        pendingUpdates := pendingSet exRtC4.pendingUpdates "c1" "follow_method" "offline",
        state := (HandleFieldModification "follow_method").1, pendingReconfirm := true } ∧
    ∃ rt', processWithRuleEngine { timeParse := modelTimeParse } { db := exDbC1 } exRtC4
        none "u1" = .ok (rt', { db := exDbC1 }) ∧ rt'.focusCustomerId = some "c1" := by
  constructor
  · exact C4_confirming_corrections.1 exRtC4 "c1" "follow_method" "offline" [] rfl
      (by tauto)
  · exact C4_confirming_corrections.2 { timeParse := modelTimeParse } { db := exDbC1 }
      exRtC4 none "u1" "c1" rfl rfl rfl
      (by intro b hb; simpa using hb.symm)

/-- C9: the score-to-level post-processing of EntityNormalization: a score
of at least 80 gives high with no confirmation, at least 60 (below 80)
medium needing confirmation, at least 40 (below 60) low needing
confirmation, and anything lower gives none with no confirmation. -/
theorem C9_score_levels (r : NormalizationResult) :
    ((80 : ℚ) ≤ r.normalizationScore →
      applyScoreLevel r = { r with normalizationLevel := "high", needsConfirmation := false }) ∧
    ((60 : ℚ) ≤ r.normalizationScore → r.normalizationScore < 80 →
      applyScoreLevel r = { r with normalizationLevel := "medium", needsConfirmation := true }) ∧
    ((40 : ℚ) ≤ r.normalizationScore → r.normalizationScore < 60 →
      applyScoreLevel r = { r with normalizationLevel := "low", needsConfirmation := true }) ∧
    (r.normalizationScore < 40 →
      applyScoreLevel r = { r with normalizationLevel := "none", needsConfirmation := false }) := by
  unfold applyScoreLevel
  refine ⟨fun h => ?_, fun h1 h2 => ?_, fun h1 h2 => ?_, fun h => ?_⟩ <;>
    split_ifs <;> first | rfl | linarith

theorem outputFollowRecords_ok (env : WorkerEnv) (w : World) (sid uid : String)
    (h1 : env.faults.getLatestDialogFails = false)
    (h2 : env.faults.getDialogsFails = false) :
    (outputFollowRecords env w sid uid).1 = .ok () := by
  unfold outputFollowRecords
  rw [h1]
  simp only [Bool.false_eq_true, if_false]
  cases hld : getLatestDialog w.db sid with
  | none => rfl
  | some d =>
    by_cases hp : (workerLoadPendingUpdates d).isEmpty
    · simp [hp]
    · simp [hp, h2]

/-- C2 counterexample: with normalization failing and the insert of
customer cB's record failing, processTask still returns success and the
record for customer cA is emitted and persisted — an emission failure
neither aborts processTask nor leaves zero FollowRecords (the repository
calls run outside the transaction). -/
theorem C2_counterexample :
    (processTask exEnvC2 { db := exDbC2 } "s2" "u2").1 = .ok () ∧
    (processTask exEnvC2 { db := exDbC2 } "s2" "u2").2.db.followRecords.map
        (fun fr => fr.customerId) = ["cA"] := by
  exact ⟨rfl, rfl⟩

/-- C2 (amended): processTask wraps its body in WithTx but passes the
non-transaction context to every repository call, so writes take effect
outside the transaction.  Failures in normalization or merging (steps 1-2)
never abort emission; in step 3 only the two dialog-loading calls can abort
processTask, while per-record emission failures are logged and skipped,
leaving already-inserted records in place.  Concretely: whenever the two
dialog loads succeed, processTask returns success regardless of
normalization and per-record insert failures, and whenever loading the
latest dialog fails, processTask surfaces an error. -/
theorem C2_processTask_faults :
    (∀ (env : WorkerEnv) (w : World) (sid uid : String),
      env.faults.getLatestDialogFails = false → env.faults.getDialogsFails = false →
      (processTask env w sid uid).1 = .ok ()) ∧
    (∀ (env : WorkerEnv) (w : World) (sid uid : String),
      env.faults.getLatestDialogFails = true →
      ∃ e, (processTask env w sid uid).1 = .error e) := by
  constructor
  · intro env w sid uid h1 h2
    unfold processTask
    have hok := outputFollowRecords_ok env (normalizeStepDb w env.normalizeResult) sid uid h1 h2
    cases hout : outputFollowRecords env (normalizeStepDb w env.normalizeResult) sid uid with
    | mk e1 w2 =>
      rw [hout] at hok
      simp only at hok
      subst hok
      simp only [hout]
  · intro env w sid uid h1
    unfold processTask outputFollowRecords
    rw [h1]
    simp

theorem C2_witness :
    (processTask exEnvC2ok { db := exDbC2 } "s2" "u2").1 = .ok () ∧
    ∃ e, (processTask exEnvC2fail { db := exDbC2 } "s2" "u2").1 = .error e := by
  constructor
  · exact C2_processTask_faults.1 exEnvC2ok { db := exDbC2 } "s2" "u2" rfl rfl
  · exact C2_processTask_faults.2 exEnvC2fail { db := exDbC2 } "s2" "u2" rfl

theorem saveConfirmed_error_no_focus (tp : TimeParse) (now : Int) (w : World)
    (rt : RuntimeContext) (userId : String) (h : rt.focusCustomerId = none) :
    saveConfirmedCustomerAndTransition tp now w rt userId =
      .error "no focus customer to save" := by
  unfold saveConfirmedCustomerAndTransition
  rw [h]

theorem saveConfirmed_error_no_data (tp : TimeParse) (now : Int) (w : World)
    (rt : RuntimeContext) (userId c : String) (hfoc : rt.focusCustomerId = some c)
    (hdata : (pendingDataFor rt.pendingUpdates c).isEmpty) :
    ∃ e, saveConfirmedCustomerAndTransition tp now w rt userId = .error e := by
  unfold saveConfirmedCustomerAndTransition
  rw [hfoc]
  simp [hdata]

theorem pwre_confirm_error (env : OrchEnv) (w : World) (rt : RuntimeContext)
    (sr : Option SemanticAnalysisResult) (userId : String) (e : String)
    (hst : rt.status = StatusConfirming)
    (hconf : env.isUserConfirmation = .ok true)
    (hsave : saveConfirmedCustomerAndTransition env.timeParse env.now w
        (ensureFocusWhenPending w.db rt) userId = .error e) :
    processWithRuleEngine env w rt sr userId = .error e := by
  unfold processWithRuleEngine
  rw [hst]
  simp [hconf, hsave]

/-- C10: in CONFIRMING, when the utterance is classified as a confirmation
but the focus customer is null and not recoverable, or pending_updates has
no data for the focus customer, ProcessTurn returns an error and the
transaction rolls back: the returned world is the unchanged input world, so
no Dialog row and no FollowRecord is persisted for the turn. -/
theorem C10_confirm_failure_rolls_back (env : OrchEnv) (w : World)
    (userId userInput : String) (s : Session) (d : Dialog)
    (hs : getActiveSession w.db userId = some s)
    (hstat : s.status = StatusConfirming)
    (hd : getLatestDialog w.db s.id = some d)
    (hds : d.runtimeSnapshot.status = StatusConfirming)
    (hconf : env.isUserConfirmation = .ok true)
    (hfail :
      (ensureFocusWhenPending w.db
          (bumpTurn (loadLatestRuntime w.db s.id))).focusCustomerId = none ∨
      ∃ c, (ensureFocusWhenPending w.db
            (bumpTurn (loadLatestRuntime w.db s.id))).focusCustomerId = some c ∧
        (pendingDataFor (ensureFocusWhenPending w.db
            (bumpTurn (loadLatestRuntime w.db s.id))).pendingUpdates c).isEmpty) :
    ∃ e, ProcessTurn env w userId userInput = (.error e, w) := by
  obtain ⟨e, hsave⟩ : ∃ e, saveConfirmedCustomerAndTransition env.timeParse env.now w
      (ensureFocusWhenPending w.db (bumpTurn (loadLatestRuntime w.db s.id))) userId =
      .error e := by
    rcases hfail with hnone | ⟨c, hc, hdata⟩
    · exact ⟨_, saveConfirmed_error_no_focus _ _ _ _ _ hnone⟩
    · exact saveConfirmed_error_no_data _ _ _ _ _ c hc hdata
  have hstload : (bumpTurn (loadLatestRuntime w.db s.id)).status = StatusConfirming := by
    unfold loadLatestRuntime
    rw [hd]
    simpa [bumpTurn] using hds
  have hload : loadOrCreateSession w userId = (s, w) := by
    unfold loadOrCreateSession
    rw [hs]
  have hcond : (s.status = StatusOutputting) = False := by
    rw [hstat]
    simp [StatusConfirming, StatusOutputting]
  refine ⟨"rule engine processing failed: " ++ e, ?_⟩
  unfold ProcessTurn processTurnBody
  simp only [hload, hcond, if_false]
  rw [pwre_confirm_error env w _ _ userId e hstload hconf hsave]

theorem C10_witness :
    ∃ e, ProcessTurn exEnvC10 { db := exDbC10 } "u3" "confirm" =
      (.error e, { db := exDbC10 }) := by
  exact C10_confirm_failure_rolls_back exEnvC10 { db := exDbC10 } "u3" "confirm"
    { id := "s3", userId := "u3", status := StatusConfirming } exDialogC10
    rfl rfl rfl rfl rfl (Or.inl rfl)

theorem mapM_asNestedEntry_map (l : List (String × List (String × Json))) :
    (l.map (fun p => (p.1, Json.obj p.2))).mapM asNestedEntry = some l := by
  induction l with
  | nil => rfl
  | cons hd tl ih =>
    rw [List.map_cons, List.mapM_cons]
    rw [show asNestedEntry (hd.1, Json.obj hd.2) = some (hd.1, hd.2) from rfl]
    rw [ih]
    simp

theorem decodeNested_encodeNested (pu : List (String × List (String × Json))) :
    decodeNestedGo (encodeNested pu) = some pu := by
  simp only [encodeNested, decodeNestedGo]
  exact mapM_asNestedEntry_map pu

/-- C8: a snapshot whose pending_updates decodes only as the legacy flat
map (and carries a focus customer) loads as the flat map re-keyed under
focus_customer_id, and encoding that nested form back to JSON and parsing
it again denotes the same (customer, field, value) triples. -/
theorem C8_legacy_flat_roundtrip (j : Json) (fc : String)
    (flat : List (String × Json)) (focus2 : Option String)
    (hnested : decodeNestedGo j = none)
    (hflat : decodeFlatGo j = some flat)
    (hne : flat ≠ []) :
    loadPendingUpdatesJson (some j) (some fc) = [(fc, flat)] ∧
    pendingTriples (loadPendingUpdatesJson
        (some (encodeNested [(fc, flat)])) focus2) = pendingTriples [(fc, flat)] := by
  constructor
  · cases j with
    | null => exact absurd hnested (by simp [decodeNestedGo])
    | str s => exact absurd hflat (by simp [decodeFlatGo])
    | obj fs =>
      have hfs : fs = flat := by simpa [decodeFlatGo] using hflat
      subst hfs
      show (match decodeNestedGo (Json.obj fs) with
        | some nf => if nf.isEmpty then loadFlatBranch (Json.obj fs) (some fc) else nf
        | none => loadFlatBranch (Json.obj fs) (some fc)) = [(fc, fs)]
      rw [hnested]
      unfold loadFlatBranch
      simp only [decodeFlatGo]
      rw [if_neg (by simpa [List.isEmpty_iff] using hne)]
  · show pendingTriples (match decodeNestedGo (encodeNested [(fc, flat)]) with
        | some nf =>
          if nf.isEmpty then loadFlatBranch (encodeNested [(fc, flat)]) focus2 else nf
        | none => loadFlatBranch (encodeNested [(fc, flat)]) focus2) =
      pendingTriples [(fc, flat)]
    rw [decodeNested_encodeNested [(fc, flat)]]
    simp

theorem C8_witness :
    loadPendingUpdatesJson (some exJsonFlatC8) (some "c1") =
      [("c1", [("follow_content", Json.str "renewal"), ("follow_method", Json.str "phone")])] ∧
    pendingTriples (loadPendingUpdatesJson
        (some (encodeNested
          [("c1", [("follow_content", Json.str "renewal"), ("follow_method", Json.str "phone")])]))
        none) =
      pendingTriples
        [("c1", [("follow_content", Json.str "renewal"), ("follow_method", Json.str "phone")])] := by
  exact C8_legacy_flat_roundtrip exJsonFlatC8 "c1"
    [("follow_content", Json.str "renewal"), ("follow_method", Json.str "phone")] none
    rfl rfl (by simp)

theorem C9_witness :
    applyScoreLevel { normalizationScore := 85 } =
      { normalizationScore := 85, normalizationLevel := "high", needsConfirmation := false } ∧
    applyScoreLevel { normalizationScore := 65 } =
      { normalizationScore := 65, normalizationLevel := "medium", needsConfirmation := true } ∧
    applyScoreLevel { normalizationScore := 45 } =
      { normalizationScore := 45, normalizationLevel := "low", needsConfirmation := true } ∧
    applyScoreLevel { normalizationScore := 5 } =
      { normalizationScore := 5, normalizationLevel := "none", needsConfirmation := false } := by
  refine ⟨(C9_score_levels { normalizationScore := 85 }).1 (by norm_num),
    (C9_score_levels { normalizationScore := 65 }).2.1 (by norm_num) (by norm_num),
    (C9_score_levels { normalizationScore := 45 }).2.2.1 (by norm_num) (by norm_num),
    (C9_score_levels { normalizationScore := 5 }).2.2.2 (by norm_num)⟩

end Sale
